import Mathlib

/-!
Verification of the particle-simulation and 3D-interaction core of an
emitter editor.  The development is a shallow embedding of the C++ source
into Lean: `float` arithmetic is modelled by exact rationals, external
library calls (`sqrt`, `sin`, `cos`, `glm::radians`, quaternion-to-matrix
conversion, `std::uniform_real_distribution`) are modelled by abstract
function parameters gathered in `MathEnv` / `RNG`, and the mutable
per-emitter simulation state is threaded explicitly.
-/

/-- A 3-component vector (models `glm::vec3` over exact rationals). -/
structure Vec3 where
  x : ℚ
  y : ℚ
  z : ℚ
deriving DecidableEq, Repr

/-- A 4-component vector (models `glm::vec4` over exact rationals). -/
structure Vec4 where
  x : ℚ
  y : ℚ
  z : ℚ
  w : ℚ
deriving DecidableEq, Repr

namespace Vec3

def add (a b : Vec3) : Vec3 := ⟨a.x + b.x, a.y + b.y, a.z + b.z⟩

def sub (a b : Vec3) : Vec3 := ⟨a.x - b.x, a.y - b.y, a.z - b.z⟩

def smul (c : ℚ) (v : Vec3) : Vec3 := ⟨c * v.x, c * v.y, c * v.z⟩

/-- Models `glm::dot` for 3-vectors. -/
def dot (a b : Vec3) : ℚ := a.x * b.x + a.y * b.y + a.z * b.z

def zero : Vec3 := ⟨0, 0, 0⟩

end Vec3

instance : Add Vec3 := ⟨Vec3.add⟩

instance : Sub Vec3 := ⟨Vec3.sub⟩

instance : SMul ℚ Vec3 := ⟨Vec3.smul⟩

/-- A 3x3 matrix given by its three columns (models `glm::mat3`). -/
structure Mat3 where
  c0 : Vec3
  c1 : Vec3
  c2 : Vec3
deriving DecidableEq, Repr

/-- Matrix-vector product, `m * v` in glm (column-major). -/
def Mat3.mulVec (m : Mat3) (v : Vec3) : Vec3 :=
  v.x • m.c0 + v.y • m.c1 + v.z • m.c2

/-- Models `glm::mix(x, y, a) = x + a * (y - x)` (linear interpolation). -/
def mix (x y a : ℚ) : ℚ := x + a * (y - x)

/-- Componentwise `glm::mix` on 3-vectors. -/
def mixV3 (x y : Vec3) (a : ℚ) : Vec3 := ⟨mix x.x y.x a, mix x.y y.y a, mix x.z y.z a⟩

/-- The abstract mathematical environment: models the external library
functions the simulation core calls but does not itself define
(`::sqrt`, `::sin`, `::cos`, `glm::radians`, and
`glm::mat3_cast(glm::quat(glm::radians(angles)))`).  All theorems either
hold for every environment or constrain it by explicit hypotheses. -/
structure MathEnv where
  sqrtq : ℚ → ℚ
  sinq : ℚ → ℚ
  cosq : ℚ → ℚ
  radq : ℚ → ℚ
  mat3FromAngles : Vec3 → Mat3

/-- Mirrors `enum class UpdateType { Fountain, Single, Explosion, Lightning }`. -/
inductive UpdateType where
  | Fountain
  | Single
  | Explosion
  | Lightning
deriving DecidableEq, Repr

/-- Mirrors `enum class GrabMode` from grab_mode.hpp. -/
inductive GrabMode where
  | None
  | Free
  | X_Axis
  | Y_Axis
  | Z_Axis
  | YZ_Plane
  | XZ_Plane
  | XY_Plane
deriving DecidableEq, Repr

/-- Mirrors `struct AnimationKeyframe { float time; glm::vec3 value; }`. -/
structure AnimationKeyframe where
  time : ℚ
  value : Vec3
deriving DecidableEq, Repr

/-- Mirrors `struct AnimationTrack { std::vector<AnimationKeyframe> keyframes; }`. -/
structure AnimationTrack where
  keyframes : List AnimationKeyframe
deriving DecidableEq, Repr

/-- The scan loop inside `AnimationTrack::getValueAtTime`: find the first
adjacent keyframe pair bracketing `time` and interpolate. -/
def keyframeScan (time : ℚ) : List AnimationKeyframe → Option Vec3
  | k0 :: k1 :: rest =>
    if k0.time ≤ time ∧ time ≤ k1.time then
      some (mixV3 k0.value k1.value ((time - k0.time) / (k1.time - k0.time)))
    else keyframeScan time (k1 :: rest)
  | _ => none

/-- Embeds `AnimationTrack::getValueAtTime` (emitter.hpp lines 40-59). -/
def AnimationTrack.getValueAtTime (track : AnimationTrack) (time : ℚ) : Vec3 :=
  match track.keyframes with
  | [] => Vec3.zero
  | [k] => k.value
  | k0 :: k1 :: rest =>
    match keyframeScan time (k0 :: k1 :: rest) with
    | some v => v
    | none => if time < k0.time then k0.value else ((k0 :: k1 :: rest).getLast (by simp)).value

/-- The simulation- and picking-relevant fields of `struct EmitterNode`
(emitter.hpp); GUI-only fields (name, texture bookkeeping, blast and
lightning parameters, ...) are omitted because no verified operation
reads them.  Defaults follow the in-class initializers. -/
structure EmitterNode where
  update : UpdateType := UpdateType.Fountain
  position : Vec3 := Vec3.zero
  rotationAngles : Vec3 := Vec3.zero
  xsize : ℚ := 0
  ysize : ℚ := 0
  birthrate : ℚ := 1
  lifeExp : ℚ := 1
  velocity : ℚ := 1
  spread : ℚ := 0
  mass : ℚ := 1
  particleRot : ℚ := 0
  colorStart : Vec3 := ⟨1, 1, 1⟩
  colorEnd : Vec3 := ⟨1, 1, 1⟩
  alphaStart : ℚ := 1
  alphaEnd : ℚ := 1
  sizeStart : ℚ := 1
  sizeEnd : ℚ := 1
  grav : ℚ := 0
  drag : ℚ := 0
  positionKeys : AnimationTrack := ⟨[]⟩

/-- Embeds `EmitterNode::getAnimatedPosition` (emitter.hpp lines 171-176). -/
def EmitterNode.getAnimatedPosition (e : EmitterNode) (time : ℚ) : Vec3 :=
  match e.positionKeys.keyframes with
  | [] => e.position
  | _ => e.positionKeys.getValueAtTime time

/-- Mirrors `struct Particle` (particle_system header). -/
structure Particle where
  position : Vec3
  velocity : Vec3
  color : Vec4
  size : ℚ
  life : ℚ
  maxLife : ℚ
  rotation : ℚ
  mass : ℚ
  active : Bool
deriving DecidableEq, Repr

/-- The `Particle` default constructor: `position(0), velocity(0),
color(1), size(1), life(0), maxLife(1), rotation(0), mass(1),
active(false)`. -/
def Particle.default : Particle :=
  { position := Vec3.zero, velocity := Vec3.zero, color := ⟨1, 1, 1, 1⟩, size := 1,
    life := 0, maxLife := 1, rotation := 0, mass := 1, active := false }

/-- Models `std::mt19937`: an abstract stream of unit-interval draws and a
cursor.  Each `std::uniform_real_distribution<float>(a,b)(rng)` call
consumes one draw `u` and yields `a + (b - a) * u`. -/
structure RNG where
  stream : ℕ → ℚ
  idx : ℕ

def RNG.next (r : RNG) : ℚ × RNG := (r.stream r.idx, { r with idx := r.idx + 1 })

def uniformSample (a b : ℚ) (r : RNG) : ℚ × RNG :=
  let (u, r1) := r.next
  (a + (b - a) * u, r1)

/-- Mirrors `struct ParticleSystemState` (pool, spawn accumulator `lastSpawnTime`,
capacity ceiling `maxParticles = 500000`, rng, animation clock). -/
structure ParticleSystemState where
  particles : List Particle
  lastSpawnTime : ℚ
  maxParticles : ℕ
  rng : RNG
  animationTime : ℚ

/-- A fresh store as default-constructed in C++ (rng seed abstract). -/
def ParticleSystemState.fresh (rng : RNG) : ParticleSystemState :=
  { particles := [], lastSpawnTime := 0, maxParticles := 500000, rng := rng, animationTime := 0 }

/-- The body of the per-particle update loop in
`ParticleRenderer::updateParticles` (particle_system.cpp lines 463-492):
age the particle, deactivate on death (skipping the rest), otherwise
integrate position with the pre-gravity velocity, apply gravity to the
z-component, apply drag to the whole velocity, re-interpolate
color/alpha/size from the decremented life, and advance self-rotation. -/
def updateOneParticle (emitter : EmitterNode) (deltaTime : ℚ) (particle : Particle) : Particle :=
  if particle.active then
    let life := particle.life - deltaTime
    if life ≤ 0 then
      { particle with life := life, active := false }
    else
      let position := particle.position + deltaTime • particle.velocity
      let velocity1 : Vec3 :=
        ⟨particle.velocity.x, particle.velocity.y, particle.velocity.z - emitter.grav * deltaTime⟩
      let velocity := (1 - emitter.drag * deltaTime) • velocity1
      let lifePercent := life / particle.maxLife
      let colorRGB := mixV3 emitter.colorEnd emitter.colorStart lifePercent
      let color : Vec4 := ⟨colorRGB.x, colorRGB.y, colorRGB.z, mix emitter.alphaEnd emitter.alphaStart lifePercent⟩
      let size := mix emitter.sizeEnd emitter.sizeStart lifePercent
      let rotation := particle.rotation + emitter.particleRot * deltaTime
      { particle with life := life, position := position, velocity := velocity,
                      color := color, size := size, rotation := rotation }
  else particle

/-- The field initializations performed by
`ParticleRenderer::spawnParticle` on the chosen slot (particle_system.cpp
lines 533-571), consuming five uniform draws in source order. -/
def spawnedParticle (env : MathEnv) (emitter : EmitterNode) (emitterPos : Vec3) (rng : RNG) :
    Particle × RNG :=
  let (xr, rng1) := uniformSample (-emitter.xsize / 2) (emitter.xsize / 2) rng
  let (yr, rng2) := uniformSample (-emitter.ysize / 2) (emitter.ysize / 2) rng1
  let localPos : Vec3 := ⟨xr, yr, 0⟩
  let rotMatrix := env.mat3FromAngles emitter.rotationAngles
  let (spreadDeg, rng3) := uniformSample 0 (emitter.spread / 2) rng2
  let (azimuthDeg, rng4) := uniformSample 0 360 rng3
  let (velVar, rng5) := uniformSample (8/10) (12/10) rng4
  let spreadAngle := env.radq spreadDeg
  let azimuth := env.radq azimuthDeg
  let speed := emitter.velocity * velVar
  let localVelocity : Vec3 :=
    ⟨env.sinq spreadAngle * env.cosq azimuth * speed,
     env.sinq spreadAngle * env.sinq azimuth * speed,
     env.cosq spreadAngle * speed⟩
  ({ active := true, life := emitter.lifeExp, maxLife := emitter.lifeExp, mass := emitter.mass,
     position := emitterPos + rotMatrix.mulVec localPos,
     velocity := rotMatrix.mulVec localVelocity,
     color := ⟨emitter.colorStart.x, emitter.colorStart.y, emitter.colorStart.z, emitter.alphaStart⟩,
     size := emitter.sizeStart, rotation := 0 }, rng5)

/-- Embeds `ParticleRenderer::spawnParticle` (particle_system.cpp lines 510-572):
reuse the first inactive slot if any; otherwise grow the pool when
`size < maxParticles`; otherwise return with the state untouched (the rng
is not consumed in that case, since the C++ function returns before any
distribution call). -/
def spawnParticle (env : MathEnv) (emitter : EmitterNode) (emitterPos : Vec3)
    (state : ParticleSystemState) : ParticleSystemState :=
  match state.particles.findIdx? (fun p => !p.active) with
  | some i =>
    let (p, rng5) := spawnedParticle env emitter emitterPos state.rng
    { state with particles := state.particles.set i p, rng := rng5 }
  | none =>
    if state.particles.length < state.maxParticles then
      let (p, rng5) := spawnedParticle env emitter emitterPos state.rng
      { state with particles := state.particles ++ [p], rng := rng5 }
    else
      state

/-- One iteration of the spawn while-loop body (particle_system.cpp lines
502-505): compute the animated emitter position, spawn one particle, and
subtract one interval from the accumulator. -/
def spawnIteration (env : MathEnv) (emitter : EmitterNode) (spawnInterval : ℚ)
    (state : ParticleSystemState) : ParticleSystemState :=
  let emitterPos := emitter.getAnimatedPosition state.animationTime
  let state1 := spawnParticle env emitter emitterPos state
  { state1 with lastSpawnTime := state1.lastSpawnTime - spawnInterval }

/-- The spawn while-loop of `ParticleRenderer::updateParticles`
(particle_system.cpp lines 500-506):
`while (lastSpawnTime >= spawnInterval && particles.size() < maxParticles)`
run one `spawnIteration`.  The `0 < spawnInterval` conjunct records
the caller's guarantee `birthrate > 0` (without it the C++ loop would not
terminate either); the returned natural number is ghost instrumentation
counting the `spawnParticle` calls and does not influence the state.  -/
def spawnLoop (env : MathEnv) (emitter : EmitterNode) (spawnInterval : ℚ)
    (state : ParticleSystemState) : ParticleSystemState × ℕ :=
  if h : 0 < spawnInterval ∧ spawnInterval ≤ state.lastSpawnTime ∧
      state.particles.length < state.maxParticles then
    ((spawnLoop env emitter spawnInterval (spawnIteration env emitter spawnInterval state)).1,
     (spawnLoop env emitter spawnInterval (spawnIteration env emitter spawnInterval state)).2 + 1)
  else
    (state, 0)
termination_by (⌊state.lastSpawnTime / spawnInterval⌋).toNat
decreasing_by
  all_goals
    have hlst : (spawnIteration env emitter spawnInterval state).lastSpawnTime
        = state.lastSpawnTime - spawnInterval := by
      unfold spawnIteration spawnParticle
      cases state.particles.findIdx? (fun p => !p.active) <;> simp
      split <;> rfl
    simp only [hlst]
    have h1 : (0:ℚ) < spawnInterval := h.1
    have hfloor : ⌊(state.lastSpawnTime - spawnInterval) / spawnInterval⌋ =
        ⌊state.lastSpawnTime / spawnInterval⌋ - 1 := by
      rw [sub_div, div_self (ne_of_gt h1), Int.floor_sub_one]
    have hge : (1:ℚ) ≤ state.lastSpawnTime / spawnInterval :=
      (le_div_iff₀ h1).mpr (by linarith [h.2.1])
    have hge1 : (1:ℤ) ≤ ⌊state.lastSpawnTime / spawnInterval⌋ := by
      exact Int.le_floor.mpr (by exact_mod_cast hge)
    omega

/-- Embeds `ParticleRenderer::updateParticles` (particle_system.cpp lines
458-508): advance the animation clock, run the per-particle update over
the pool, then (Fountain mode with positive birthrate only) accumulate
`deltaTime` into the spawn accumulator and run the spawn loop with
`spawnInterval = 1 / birthrate`.  The ghost counter reports how many
particles were spawned by this call. -/
def updateParticles (env : MathEnv) (emitter : EmitterNode) (state : ParticleSystemState)
    (deltaTime : ℚ) : ParticleSystemState × ℕ :=
  let state1 := { state with animationTime := state.animationTime + deltaTime }
  let state2 := { state1 with particles := state1.particles.map (updateOneParticle emitter deltaTime) }
  if emitter.update = UpdateType.Fountain ∧ 0 < emitter.birthrate then
    let spawnInterval := 1 / emitter.birthrate
    let state3 := { state2 with lastSpawnTime := state2.lastSpawnTime + deltaTime }
    spawnLoop env emitter spawnInterval state3
  else
    (state2, 0)

/-! Concrete fixtures shared by witness theorems. -/

/-- A concrete environment (the abstract library functions never influence
the verified observables, so the all-zero instance suffices). -/
def envT : MathEnv :=
  { sqrtq := fun _ => 0, sinq := fun _ => 0, cosq := fun _ => 0, radq := fun _ => 0,
    mat3FromAngles := fun _ => ⟨⟨1, 0, 0⟩, ⟨0, 1, 0⟩, ⟨0, 0, 1⟩⟩ }

/-- A concrete rng stream. -/
def rngT : RNG := { stream := fun _ => 0, idx := 0 }

/-- The store used in the C1 counterexample: capacity ceiling 1, the pool
vector already holding one (inactive, hence reusable) particle, empty
accumulator. -/
def stateC1 : ParticleSystemState :=
  { particles := [Particle.default], lastSpawnTime := 0, maxParticles := 1,
    rng := rngT, animationTime := 0 }

/-- A sequence of `advance` calls: fold `updateParticles` over a list of
time steps, accumulating the ghost spawn count. -/
def advanceSeq (env : MathEnv) (e : EmitterNode) :
    ParticleSystemState × ℕ → List ℚ → ParticleSystemState × ℕ
  | r, [] => r
  | r, dt :: rest =>
    advanceSeq env e
      ((updateParticles env e r.1 dt).1, r.2 + (updateParticles env e r.1 dt).2) rest

/-- The life invariant on active particles (spec section 8, first bullet). -/
def ActiveLifeInv (s : ParticleSystemState) : Prop :=
  ∀ p ∈ s.particles, p.active = true → 0 ≤ p.life ∧ p.life ≤ p.maxLife

/-- Every particle held in a store has positive `maxLife`. -/
def MaxLifeInv (s : ParticleSystemState) : Prop :=
  ∀ p ∈ s.particles, 0 < p.maxLife

/-- The active-counting loop shared by both accessors. -/
def countActiveIn (particles : List Particle) : ℕ :=
  particles.countP (fun p => p.active)

/-- Embeds `ParticleRenderer::getActiveParticleCount` (particle_system.cpp lines
1366-1378): return 0 for an out-of-range emitter index, else count the
active particles of that store. -/
def getActiveParticleCount (emitterStates : List ParticleSystemState) (emitterIndex : ℤ) : ℕ :=
  if emitterIndex < 0 then 0
  else
    match emitterStates.get? emitterIndex.toNat with
    | some state => countActiveIn state.particles
    | none => 0

/-- Embeds `ParticleRenderer::getTotalActiveParticleCount` (particle_system.cpp
lines 1380-1392): count active particles over all stores. -/
def getTotalActiveParticleCount (emitterStates : List ParticleSystemState) : ℕ :=
  (emitterStates.map (fun state => countActiveIn state.particles)).sum

/-- Embeds `ParticleRenderer::mouseToCameraRelativeMovement` (particle_system.cpp
lines 1630-1721).  The camera basis vectors are the normalized first two
columns of the inverted view matrix; that extraction (glm `inverse` +
`normalize`) is external-library code, so the embedding takes the
resulting `cameraRight` / `cameraUp` vectors as inputs and mirrors the
mode switch exactly.  (The camera-forward vector is computed by the C++
function but read by none of the branches.) -/
def mouseToCameraRelativeMovement (cameraRight cameraUp : Vec3)
    (mouseDeltaX mouseDeltaY : ℚ) (grabMode : GrabMode) (sensitivity : ℚ) : Vec3 :=
  match grabMode with
  | GrabMode.Free =>
    (mouseDeltaX * sensitivity) • cameraRight + (-mouseDeltaY * sensitivity) • cameraUp
  | GrabMode.X_Axis =>
    let worldX : Vec3 := ⟨1, 0, 0⟩
    let rightDotX := Vec3.dot cameraRight worldX
    let upDotX := Vec3.dot cameraUp worldX
    let xMovement := if |rightDotX| > |upDotX| then mouseDeltaX * rightDotX
                     else -mouseDeltaY * upDotX
    (xMovement * sensitivity) • worldX
  | GrabMode.Y_Axis =>
    let worldY : Vec3 := ⟨0, 1, 0⟩
    let rightDotY := Vec3.dot cameraRight worldY
    let upDotY := Vec3.dot cameraUp worldY
    let yMovement := if |rightDotY| > |upDotY| then mouseDeltaX * rightDotY
                     else -mouseDeltaY * upDotY
    (yMovement * sensitivity) • worldY
  | GrabMode.Z_Axis =>
    let worldZ : Vec3 := ⟨0, 0, 1⟩
    let rightDotZ := Vec3.dot cameraRight worldZ
    let upDotZ := Vec3.dot cameraUp worldZ
    let zMovement := if |rightDotZ| > |upDotZ| then mouseDeltaX * rightDotZ
                     else -mouseDeltaY * upDotZ
    (zMovement * sensitivity) • worldZ
  | GrabMode.YZ_Plane =>
    let cameraMovement :=
      (mouseDeltaX * sensitivity) • cameraRight + (-mouseDeltaY * sensitivity) • cameraUp
    ⟨0, cameraMovement.y, cameraMovement.z⟩
  | GrabMode.XZ_Plane =>
    let cameraMovement :=
      (mouseDeltaX * sensitivity) • cameraRight + (-mouseDeltaY * sensitivity) • cameraUp
    ⟨cameraMovement.x, 0, cameraMovement.z⟩
  | GrabMode.XY_Plane =>
    let cameraMovement :=
      (mouseDeltaX * sensitivity) • cameraRight + (-mouseDeltaY * sensitivity) • cameraUp
    ⟨cameraMovement.x, cameraMovement.y, 0⟩
  | GrabMode.None => Vec3.zero

/-- The grab-gesture interaction state: the file-scope globals
`g_grabMode`, `g_grabbedEmitter`, `g_grabStartPosition`,
`g_grabCurrentPosition`, `g_grabStartMouse` of main.cpp. -/
structure GrabInteraction where
  grabMode : GrabMode
  grabbedEmitter : ℤ
  grabStartPosition : Vec3
  grabCurrentPosition : Vec3
  grabStartMouse : ℚ × ℚ

/-- Grab-gesture start (main.cpp lines 416-432): when no gesture is
active, the grab hotkey fires, the viewport is hovered and the selected
emitter index is in range, enter `Free` grab targeting it and snapshot
its current position. -/
def startGrab (g : GrabInteraction) (emitters : List EmitterNode) (selectedEmitter : ℤ)
    (viewportHovered : Bool) (mousePos : ℚ × ℚ) : GrabInteraction :=
  if g.grabMode = GrabMode.None ∧ viewportHovered = true ∧
      0 ≤ selectedEmitter ∧ selectedEmitter < (emitters.length : ℤ) then
    match emitters.get? selectedEmitter.toNat with
    | some em =>
      { grabMode := GrabMode.Free, grabbedEmitter := selectedEmitter,
        grabStartPosition := em.position, grabCurrentPosition := em.position,
        grabStartMouse := mousePos }
    | none => g
  else g

/-- One application of the grab's constrained mouse movement (main.cpp
lines 893-911): while a grab is active with the viewport hovered, the
grabbed emitter's position — bounds-checked — is set to the snapshot plus
the constrained delta. -/
def applyGrabMovement (g : GrabInteraction) (emitters : List EmitterNode)
    (constrainedDelta : Vec3) : List EmitterNode :=
  if 0 ≤ g.grabbedEmitter ∧ g.grabbedEmitter < (emitters.length : ℤ) then
    match emitters.get? g.grabbedEmitter.toNat with
    | some em =>
      emitters.set g.grabbedEmitter.toNat
        { em with position := g.grabStartPosition + constrainedDelta }
    | none => emitters
  else emitters

/-- Grab cancel (main.cpp lines 357-367; the right-click path at lines
919-928 is identical): restore the snapshot position when the target
index is still in range, then return to no-gesture. -/
def cancelGrab (g : GrabInteraction) (emitters : List EmitterNode) :
    GrabInteraction × List EmitterNode :=
  let emitters2 :=
    if 0 ≤ g.grabbedEmitter ∧ g.grabbedEmitter < (emitters.length : ℤ) then
      match emitters.get? g.grabbedEmitter.toNat with
      | some em => emitters.set g.grabbedEmitter.toNat { em with position := g.grabStartPosition }
      | none => emitters
    else emitters
  ({ g with grabMode := GrabMode.None, grabbedEmitter := -1 }, emitters2)

/-- Mirrors `ParticleRenderer::Ray` (header): world-space ray. -/
structure Ray where
  origin : Vec3
  direction : Vec3

/-- The quadratic coefficient `a = dot(direction, direction)` of
`rayIntersectsSphere` (particle_system.cpp line 1426). -/
def sphereQuadA (ray : Ray) : ℚ := Vec3.dot ray.direction ray.direction

/-- The coefficient `b = 2 * dot(oc, direction)` with
`oc = origin - center` (line 1427). -/
def sphereQuadB (ray : Ray) (center : Vec3) : ℚ :=
  2 * Vec3.dot (ray.origin - center) ray.direction

/-- The coefficient `c = dot(oc, oc) - radius * radius` (line 1428). -/
def sphereQuadC (ray : Ray) (center : Vec3) (radius : ℚ) : ℚ :=
  Vec3.dot (ray.origin - center) (ray.origin - center) - radius * radius

/-- The local `discriminant = b*b - 4*a*c` (line 1430). -/
def sphereDiscriminant (ray : Ray) (center : Vec3) (radius : ℚ) : ℚ :=
  sphereQuadB ray center * sphereQuadB ray center
    - 4 * sphereQuadA ray * sphereQuadC ray center radius

/-- The root `t1 = (-b - sqrt(discriminant)) / (2*a)` (line 1437). -/
def sphereT1 (sqrtF : ℚ → ℚ) (ray : Ray) (center : Vec3) (radius : ℚ) : ℚ :=
  (-sphereQuadB ray center - sqrtF (sphereDiscriminant ray center radius))
    / (2 * sphereQuadA ray)

/-- The root `t2 = (-b + sqrt(discriminant)) / (2*a)` (line 1438). -/
def sphereT2 (sqrtF : ℚ → ℚ) (ray : Ray) (center : Vec3) (radius : ℚ) : ℚ :=
  (-sphereQuadB ray center + sqrtF (sphereDiscriminant ray center radius))
    / (2 * sphereQuadA ray)

/-- Embeds `ParticleRenderer::rayIntersectsSphere` (particle_system.cpp lines
1423-1453): miss on negative discriminant, otherwise the smaller root
when positive, else the larger root when positive, else miss.  `sqrtF`
models the C library `sqrt`; the local variables `a, b, c, discriminant,
t1, t2` are the named definitions above. -/
def rayIntersectsSphere (sqrtF : ℚ → ℚ) (ray : Ray) (center : Vec3) (radius : ℚ) : Option ℚ :=
  if sphereDiscriminant ray center radius < 0 then none
  else if sphereT1 sqrtF ray center radius > 0 then some (sphereT1 sqrtF ray center radius)
  else if sphereT2 sqrtF ray center radius > 0 then some (sphereT2 sqrtF ray center radius)
  else none

/-- The claim-side predicate: `t` solves the quadratic
`|O + t*D - C|^2 = r^2`. -/
def sphereEq (ray : Ray) (center : Vec3) (radius : ℚ) (t : ℚ) : Prop :=
  Vec3.dot (ray.origin + t • ray.direction - center)
    (ray.origin + t • ray.direction - center) = radius * radius

/-- A concrete square-root oracle adequate for the witness ray (its
discriminant is 4). -/
def sqrtW : ℚ → ℚ := fun q => if q = 4 then 2 else 0

/-- Embeds `ParticleRenderer::rayIntersectsCone` (particle_system.cpp lines
1455-1484): the cone is approximated by 10 discs sampled along its axis
(`t = height*i/samples`, disc radius `t * sin(angle)`); the first disc
with radius above the 0.1 picking minimum that the ray-sphere test hits
yields the reported distance.  (The source also computes `cos(angle)`
but never reads it.) -/
def rayIntersectsCone (env : MathEnv) (ray : Ray) (apex direction : Vec3)
    (height angle : ℚ) : Option ℚ :=
  (List.range' 1 10).findSome? (fun i =>
    if ((height * i / 10) * env.sinq angle) > 1/10 then
      rayIntersectsSphere env.sqrtq ray (apex + (height * i / 10) • direction)
        ((height * i / 10) * env.sinq angle)
    else none)

/-- The accumulator update used for every candidate hit in the
`pickEmitter` loop (particle_system.cpp lines 1502-1509 and 1521-1528):
a hit strictly closer than the running closest replaces it; `none`
models the initial `FLT_MAX`. -/
def pickUpdate (acc : ℤ × Option ℚ) (i : ℕ) (hit : Option ℚ) : ℤ × Option ℚ :=
  match hit with
  | some distance =>
    match acc.2 with
    | none => ((i : ℤ), some distance)
    | some closest => if distance < closest then ((i : ℤ), some distance) else acc
  | none => acc

/-- The per-emitter body of the `pickEmitter` loop (particle_system.cpp
lines 1494-1529): test the bounding sphere of radius
`max(0.5, max(xsize, ysize)*0.5 + 0.2)` at the animated position, then —
when `velocity > 0 && spread > 0` — the spread cone of height 2 and
half-angle `radians(spread*0.5)` along the rotated local Z axis, each
candidate compared against the running closest. -/
def pickStep (env : MathEnv) (ray : Ray) (time : ℚ) (acc : ℤ × Option ℚ) (i : ℕ)
    (emitter : EmitterNode) : ℤ × Option ℚ :=
  if emitter.velocity > 0 ∧ emitter.spread > 0 then
    pickUpdate
      (pickUpdate acc i
        (rayIntersectsSphere env.sqrtq ray (emitter.getAnimatedPosition time)
          (max (1/2) (max emitter.xsize emitter.ysize * (1/2) + 1/5))))
      i
      (rayIntersectsCone env ray (emitter.getAnimatedPosition time)
        ((env.mat3FromAngles emitter.rotationAngles).mulVec ⟨0, 0, 1⟩) 2
        (env.radq (emitter.spread * (1/2))))
  else
    pickUpdate acc i
      (rayIntersectsSphere env.sqrtq ray (emitter.getAnimatedPosition time)
        (max (1/2) (max emitter.xsize emitter.ysize * (1/2) + 1/5)))

/-- The indexed loop of `pickEmitter`. -/
def pickLoop (env : MathEnv) (ray : Ray) (time : ℚ) :
    ℕ → ℤ × Option ℚ → List EmitterNode → ℤ × Option ℚ
  | _, acc, [] => acc
  | i, acc, e :: rest => pickLoop env ray time (i + 1) (pickStep env ray time acc i e) rest

/-- Embeds `ParticleRenderer::pickEmitter` (particle_system.cpp lines 1486-1533)
given the already-constructed mouse ray (`createRayFromMouse` is
camera-matrix plumbing on the glm side): fold the per-emitter test over
the list starting from the no-selection sentinel `-1` and `FLT_MAX`. -/
def pickEmitter (env : MathEnv) (emitters : List EmitterNode) (ray : Ray)
    (globalAnimationTime : ℚ) : ℤ :=
  (pickLoop env ray globalAnimationTime 0 (-1, none) emitters).1

/-- Combining two sequential candidates: keep the strictly nearer one
(ties to the first). -/
def combineHits (s c : Option ℚ) : Option ℚ :=
  match s, c with
  | none, o => o
  | some d, none => some d
  | some d, some d2 => if d2 < d then some d2 else some d

/-- The claim-side description of one emitter's best hit: the nearer of
its bounding-sphere hit and (when eligible) its spread-cone hit. -/
def emitterHitDistance (env : MathEnv) (ray : Ray) (time : ℚ) (e : EmitterNode) : Option ℚ :=
  combineHits
    (rayIntersectsSphere env.sqrtq ray (e.getAnimatedPosition time)
      (max (1/2) (max e.xsize e.ysize * (1/2) + 1/5)))
    (if e.velocity > 0 ∧ e.spread > 0 then
      rayIntersectsCone env ray (e.getAnimatedPosition time)
        ((env.mat3FromAngles e.rotationAngles).mulVec ⟨0, 0, 1⟩) 2
        (env.radq (e.spread * (1/2)))
    else none)

@[simp] theorem Vec3.add_x (a b : Vec3) : (a + b).x = a.x + b.x := rfl

@[simp] theorem Vec3.add_y (a b : Vec3) : (a + b).y = a.y + b.y := rfl

@[simp] theorem Vec3.add_z (a b : Vec3) : (a + b).z = a.z + b.z := rfl

@[simp] theorem Vec3.sub_x (a b : Vec3) : (a - b).x = a.x - b.x := rfl

@[simp] theorem Vec3.sub_y (a b : Vec3) : (a - b).y = a.y - b.y := rfl

@[simp] theorem Vec3.sub_z (a b : Vec3) : (a - b).z = a.z - b.z := rfl

@[simp] theorem Vec3.smul_x (c : ℚ) (v : Vec3) : (c • v).x = c * v.x := rfl

@[simp] theorem Vec3.smul_y (c : ℚ) (v : Vec3) : (c • v).y = c * v.y := rfl

@[simp] theorem Vec3.smul_z (c : ℚ) (v : Vec3) : (c • v).z = c * v.z := rfl

theorem spawnParticle_lastSpawnTime (env : MathEnv) (emitter : EmitterNode) (emitterPos : Vec3)
    (state : ParticleSystemState) :
    (spawnParticle env emitter emitterPos state).lastSpawnTime = state.lastSpawnTime := by
  unfold spawnParticle
  cases state.particles.findIdx? (fun p => !p.active) <;> simp <;> split <;> rfl

theorem spawnParticle_animationTime (env : MathEnv) (emitter : EmitterNode) (emitterPos : Vec3)
    (state : ParticleSystemState) :
    (spawnParticle env emitter emitterPos state).animationTime = state.animationTime := by
  unfold spawnParticle
  cases state.particles.findIdx? (fun p => !p.active) <;> simp <;> split <;> rfl

theorem spawnParticle_maxParticles (env : MathEnv) (emitter : EmitterNode) (emitterPos : Vec3)
    (state : ParticleSystemState) :
    (spawnParticle env emitter emitterPos state).maxParticles = state.maxParticles := by
  unfold spawnParticle
  cases state.particles.findIdx? (fun p => !p.active) <;> simp <;> split <;> rfl

theorem spawnParticle_length_le (env : MathEnv) (emitter : EmitterNode) (emitterPos : Vec3)
    (state : ParticleSystemState) :
    (spawnParticle env emitter emitterPos state).particles.length ≤ state.particles.length + 1 := by
  unfold spawnParticle
  cases state.particles.findIdx? (fun p => !p.active) <;> simp
  split <;> simp

theorem spawnParticle_length_le_max (env : MathEnv) (emitter : EmitterNode) (emitterPos : Vec3)
    (state : ParticleSystemState) (h : state.particles.length ≤ state.maxParticles) :
    (spawnParticle env emitter emitterPos state).particles.length ≤ state.maxParticles := by
  unfold spawnParticle
  cases state.particles.findIdx? (fun p => !p.active) <;> simp
  · split
    · simpa using (by assumption : state.particles.length < state.maxParticles)
    · simpa using h
  · exact h

theorem spawnParticle_full (env : MathEnv) (emitter : EmitterNode) (emitterPos : Vec3)
    (state : ParticleSystemState) (h : state.maxParticles ≤ state.particles.length)
    (hno : state.particles.findIdx? (fun p => !p.active) = none) :
    spawnParticle env emitter emitterPos state = state := by
  unfold spawnParticle
  rw [hno]
  simp [Nat.not_lt.mpr h]

/-- Every particle in the pool after a `spawnParticle` call either was
already there or is the freshly initialized particle. -/
theorem spawnParticle_mem (env : MathEnv) (emitter : EmitterNode) (emitterPos : Vec3)
    (state : ParticleSystemState) (q : Particle)
    (hq : q ∈ (spawnParticle env emitter emitterPos state).particles) :
    q ∈ state.particles ∨ q = (spawnedParticle env emitter emitterPos state.rng).1 := by
  unfold spawnParticle at hq
  rcases h : state.particles.findIdx? (fun p => !p.active) with _ | i <;> rw [h] at hq
  · simp only at hq
    split at hq
    · simp only [List.mem_append, List.mem_singleton] at hq
      exact hq
    · exact Or.inl hq
  · simp only at hq
    rcases List.mem_or_eq_of_mem_set hq with h1 | h1
    · exact Or.inl h1
    · exact Or.inr h1

theorem spawnIteration_lastSpawnTime (env : MathEnv) (emitter : EmitterNode) (spawnInterval : ℚ)
    (state : ParticleSystemState) :
    (spawnIteration env emitter spawnInterval state).lastSpawnTime
      = state.lastSpawnTime - spawnInterval := by
  simp [spawnIteration, spawnParticle_lastSpawnTime]

theorem spawnIteration_maxParticles (env : MathEnv) (emitter : EmitterNode) (spawnInterval : ℚ)
    (state : ParticleSystemState) :
    (spawnIteration env emitter spawnInterval state).maxParticles = state.maxParticles := by
  simp [spawnIteration, spawnParticle_maxParticles]

theorem spawnIteration_length_le (env : MathEnv) (emitter : EmitterNode) (spawnInterval : ℚ)
    (state : ParticleSystemState) :
    (spawnIteration env emitter spawnInterval state).particles.length
      ≤ state.particles.length + 1 := by
  simpa [spawnIteration] using spawnParticle_length_le env emitter
    (emitter.getAnimatedPosition state.animationTime) state

theorem spawnIteration_length_le_max (env : MathEnv) (emitter : EmitterNode) (spawnInterval : ℚ)
    (state : ParticleSystemState) (h : state.particles.length ≤ state.maxParticles) :
    (spawnIteration env emitter spawnInterval state).particles.length ≤ state.maxParticles := by
  simpa [spawnIteration] using spawnParticle_length_le_max env emitter
    (emitter.getAnimatedPosition state.animationTime) state h

theorem spawnIteration_mem (env : MathEnv) (emitter : EmitterNode) (spawnInterval : ℚ)
    (state : ParticleSystemState) (q : Particle)
    (hq : q ∈ (spawnIteration env emitter spawnInterval state).particles) :
    q ∈ state.particles ∨
      q = (spawnedParticle env emitter (emitter.getAnimatedPosition state.animationTime)
            state.rng).1 := by
  refine spawnParticle_mem env emitter (emitter.getAnimatedPosition state.animationTime) state q ?_
  simpa [spawnIteration] using hq

/-- The spawn loop's postcondition: accumulator bookkeeping, loop exit
condition, full-pool no-op, and pool-size bounds. -/
theorem spawnLoop_post (env : MathEnv) (emitter : EmitterNode) (spawnInterval : ℚ)
    (hi : 0 < spawnInterval) :
    ∀ state : ParticleSystemState,
      (spawnLoop env emitter spawnInterval state).1.lastSpawnTime
          = state.lastSpawnTime - (spawnLoop env emitter spawnInterval state).2 * spawnInterval ∧
      (spawnLoop env emitter spawnInterval state).1.maxParticles = state.maxParticles ∧
      ((spawnLoop env emitter spawnInterval state).1.lastSpawnTime < spawnInterval ∨
        (spawnLoop env emitter spawnInterval state).1.maxParticles
          ≤ (spawnLoop env emitter spawnInterval state).1.particles.length) ∧
      (state.maxParticles ≤ state.particles.length →
        spawnLoop env emitter spawnInterval state = (state, 0)) ∧
      (0 ≤ state.lastSpawnTime → 0 ≤ (spawnLoop env emitter spawnInterval state).1.lastSpawnTime) ∧
      (state.particles.length ≤ state.maxParticles →
        (spawnLoop env emitter spawnInterval state).1.particles.length ≤ state.maxParticles) ∧
      (spawnLoop env emitter spawnInterval state).1.particles.length
        ≤ state.particles.length + (spawnLoop env emitter spawnInterval state).2 := by
  apply spawnLoop.induct env emitter spawnInterval
  · -- loop guard holds: one spawn, then recurse
    intro s h ih
    obtain ⟨h1, h2, h3⟩ := h
    rw [spawnLoop, dif_pos ⟨h1, h2, h3⟩]
    obtain ⟨iha, ihb, ihc, _, ihe, ihf, ihg⟩ := ih
    have hlst := spawnIteration_lastSpawnTime env emitter spawnInterval s
    have hmax := spawnIteration_maxParticles env emitter spawnInterval s
    refine ⟨?_, ?_, ?_, ?_, ?_, ?_, ?_⟩
    · simp only [iha, hlst]
      push_cast
      ring
    · rw [ihb, hmax]
    · exact ihc
    · intro hfull
      exact absurd h3 (Nat.not_lt.mpr hfull)
    · intro
      exact ihe (by rw [hlst]; linarith)
    · intro hlen
      have hcap := spawnIteration_length_le_max env emitter spawnInterval s hlen
      rw [← hmax] at hcap ⊢
      exact ihf hcap
    · have hle := spawnIteration_length_le env emitter spawnInterval s
      simp only []
      omega
  · -- loop guard fails: nothing spawned
    intro s h
    rw [spawnLoop, dif_neg h]
    have hstop : s.lastSpawnTime < spawnInterval ∨ s.maxParticles ≤ s.particles.length := by
      rcases not_and_or.mp h with h2 | h2
      · exact absurd hi h2
      · rcases not_and_or.mp h2 with h3 | h3
        · exact Or.inl (lt_of_not_le h3)
        · exact Or.inr (Nat.not_lt.mp h3)
    exact ⟨by push_cast; ring, rfl, hstop, fun _ => rfl, fun h0 => h0, fun h0 => h0, Nat.le_add_right _ _⟩

/-- With the accumulator nonnegative and enough capacity, the spawn loop
spawns exactly `⌊lastSpawnTime / spawnInterval⌋` particles. -/
theorem spawnLoop_count (env : MathEnv) (emitter : EmitterNode) (spawnInterval : ℚ)
    (hi : 0 < spawnInterval) :
    ∀ state : ParticleSystemState, 0 ≤ state.lastSpawnTime →
      state.particles.length + (⌊state.lastSpawnTime / spawnInterval⌋).toNat ≤ state.maxParticles →
      (spawnLoop env emitter spawnInterval state).2
        = (⌊state.lastSpawnTime / spawnInterval⌋).toNat := by
  apply spawnLoop.induct env emitter spawnInterval
  · intro s h ih hacc hcap
    obtain ⟨h1, h2, h3⟩ := h
    rw [spawnLoop, dif_pos ⟨h1, h2, h3⟩]
    have hlst := spawnIteration_lastSpawnTime env emitter spawnInterval s
    have hmax := spawnIteration_maxParticles env emitter spawnInterval s
    have hfloor : ⌊(spawnIteration env emitter spawnInterval s).lastSpawnTime / spawnInterval⌋
        = ⌊s.lastSpawnTime / spawnInterval⌋ - 1 := by
      rw [hlst, sub_div, div_self (ne_of_gt h1), Int.floor_sub_one]
    have hge : (1:ℚ) ≤ s.lastSpawnTime / spawnInterval := (le_div_iff₀ h1).mpr (by linarith)
    have hge1 : (1:ℤ) ≤ ⌊s.lastSpawnTime / spawnInterval⌋ := Int.le_floor.mpr (by exact_mod_cast hge)
    have hlen := spawnIteration_length_le env emitter spawnInterval s
    have hcap2 : (spawnIteration env emitter spawnInterval s).particles.length
        + (⌊(spawnIteration env emitter spawnInterval s).lastSpawnTime / spawnInterval⌋).toNat
        ≤ (spawnIteration env emitter spawnInterval s).maxParticles := by
      rw [hfloor, hmax]
      omega
    have hacc2 : 0 ≤ (spawnIteration env emitter spawnInterval s).lastSpawnTime := by
      rw [hlst]; linarith
    rw [ih hacc2 hcap2, hfloor]
    omega
  · intro s h hacc hcap
    rw [spawnLoop, dif_neg h]
    rcases not_and_or.mp h with h2 | h2
    · exact absurd hi h2
    · rcases not_and_or.mp h2 with h3 | h3
      · push_neg at h3
        have : ⌊s.lastSpawnTime / spawnInterval⌋ = 0 := by
          rw [Int.floor_eq_zero_iff]
          exact ⟨by positivity, (div_lt_one hi).mpr h3⟩
        simp [this]
      · have hfull : s.maxParticles ≤ s.particles.length := Nat.not_lt.mp h3
        omega

/-- Any per-particle property that holds of the pool and of every freshly
spawned particle is preserved by the spawn loop. -/
theorem spawnLoop_forall (env : MathEnv) (emitter : EmitterNode) (spawnInterval : ℚ)
    (Q : Particle → Prop)
    (hQ : ∀ rng pos, Q (spawnedParticle env emitter pos rng).1) :
    ∀ state : ParticleSystemState, (∀ p ∈ state.particles, Q p) →
      ∀ p ∈ (spawnLoop env emitter spawnInterval state).1.particles, Q p := by
  apply spawnLoop.induct env emitter spawnInterval
  · intro s h ih hall
    rw [spawnLoop, dif_pos h]
    refine ih ?_
    intro p hp
    rcases spawnIteration_mem env emitter spawnInterval s p hp with h1 | h1
    · exact hall p h1
    · rw [h1]; exact hQ _ _
  · intro s h hall
    rw [spawnLoop, dif_neg h]
    exact hall

/-- Claim C3: for every active particle and every `dt`, one advance call
performs, in this order: `life -= dt`; if the resulting life is `≤ 0` the
particle is marked inactive and no other field changes; otherwise the
position is integrated with the pre-gravity velocity, the z (up-axis)
velocity component is decremented by `grav * dt`, the whole velocity is
then scaled by `(1 - drag * dt)`, color/alpha/size are re-interpolated
between end and start values with weight `life / maxLife` (using the
decremented life), and the self-rotation accumulator advances by
`particleRot * dt`. -/
theorem C3_particle_update_order (emitter : EmitterNode) (deltaTime : ℚ) (p : Particle)
    (hp : p.active = true) :
    updateOneParticle emitter deltaTime p =
      if p.life - deltaTime ≤ 0 then
        { p with life := p.life - deltaTime, active := false }
      else
        { p with
          life := p.life - deltaTime,
          position := p.position + deltaTime • p.velocity,
          velocity := ⟨(1 - emitter.drag * deltaTime) * p.velocity.x,
                       (1 - emitter.drag * deltaTime) * p.velocity.y,
                       (1 - emitter.drag * deltaTime) * (p.velocity.z - emitter.grav * deltaTime)⟩,
          color := ⟨mix emitter.colorEnd.x emitter.colorStart.x ((p.life - deltaTime) / p.maxLife),
                    mix emitter.colorEnd.y emitter.colorStart.y ((p.life - deltaTime) / p.maxLife),
                    mix emitter.colorEnd.z emitter.colorStart.z ((p.life - deltaTime) / p.maxLife),
                    mix emitter.alphaEnd emitter.alphaStart ((p.life - deltaTime) / p.maxLife)⟩,
          size := mix emitter.sizeEnd emitter.sizeStart ((p.life - deltaTime) / p.maxLife),
          rotation := p.rotation + emitter.particleRot * deltaTime } := by
  unfold updateOneParticle
  rw [hp]
  simp only [if_true]
  split
  · rfl
  · rfl

/-- Witness for C3 at a concrete active particle and step. -/
theorem C3_particle_update_order_witness :
    ({ Particle.default with active := true, life := 2, maxLife := 2 } : Particle).active = true ∧
    updateOneParticle {} (1/2) { Particle.default with active := true, life := 2, maxLife := 2 } =
      if ({ Particle.default with active := true, life := 2, maxLife := 2 } : Particle).life - 1/2 ≤ 0 then
        { { Particle.default with active := true, life := 2, maxLife := 2 } with
          life := ({ Particle.default with active := true, life := 2, maxLife := 2 } : Particle).life - 1/2,
          active := false }
      else
        { { Particle.default with active := true, life := 2, maxLife := 2 } with
          life := (2 : ℚ) - 1/2,
          position := ({ Particle.default with active := true, life := 2, maxLife := 2 } : Particle).position
            + (1/2 : ℚ) • ({ Particle.default with active := true, life := 2, maxLife := 2 } : Particle).velocity,
          velocity := ⟨(1 - ({} : EmitterNode).drag * (1/2)) * 0,
                       (1 - ({} : EmitterNode).drag * (1/2)) * 0,
                       (1 - ({} : EmitterNode).drag * (1/2)) * (0 - ({} : EmitterNode).grav * (1/2))⟩,
          color := ⟨mix ({} : EmitterNode).colorEnd.x ({} : EmitterNode).colorStart.x (((2:ℚ) - 1/2) / 2),
                    mix ({} : EmitterNode).colorEnd.y ({} : EmitterNode).colorStart.y (((2:ℚ) - 1/2) / 2),
                    mix ({} : EmitterNode).colorEnd.z ({} : EmitterNode).colorStart.z (((2:ℚ) - 1/2) / 2),
                    mix ({} : EmitterNode).alphaEnd ({} : EmitterNode).alphaStart (((2:ℚ) - 1/2) / 2)⟩,
          size := mix ({} : EmitterNode).sizeEnd ({} : EmitterNode).sizeStart (((2:ℚ) - 1/2) / 2),
          rotation := ({ Particle.default with active := true, life := 2, maxLife := 2 } : Particle).rotation
            + ({} : EmitterNode).particleRot * (1/2) } := by
  refine ⟨rfl, ?_⟩
  have h := C3_particle_update_order {} (1/2)
    { Particle.default with active := true, life := 2, maxLife := 2 } rfl
  simpa [Particle.default] using h

/-- In Fountain mode with positive birthrate, one `updateParticles` call
is the aging pass followed by the spawn loop on the accumulated time. -/
theorem updateParticles_fountain (env : MathEnv) (e : EmitterNode) (s : ParticleSystemState)
    (dt : ℚ) (h : e.update = UpdateType.Fountain ∧ 0 < e.birthrate) :
    updateParticles env e s dt = spawnLoop env e (1 / e.birthrate)
      { particles := s.particles.map (updateOneParticle e dt),
        lastSpawnTime := s.lastSpawnTime + dt,
        maxParticles := s.maxParticles, rng := s.rng,
        animationTime := s.animationTime + dt } := by
  unfold updateParticles
  rw [if_pos h]

/-- Claim C1 (amended): in Fountain mode with `birthrate > 0`, the spawn
loop spawns one particle and subtracts `1/birthrate` from the accumulator
as long as the accumulator is at least `1/birthrate` AND the pool size is
strictly below `maxParticles`; once the pool size has reached
`maxParticles` the loop spawns nothing — even when inactive slots exist —
and the request is silently dropped while the rest of the store is
updated normally. -/
theorem C1_spawn_capacity (env : MathEnv) (e : EmitterNode) (s : ParticleSystemState) (dt : ℚ)
    (hF : e.update = UpdateType.Fountain) (hB : 0 < e.birthrate)
    (hacc : 0 ≤ s.lastSpawnTime) (hdt : 0 ≤ dt) :
    (updateParticles env e s dt).1.lastSpawnTime
        = s.lastSpawnTime + dt - (updateParticles env e s dt).2 * (1 / e.birthrate) ∧
    0 ≤ (updateParticles env e s dt).1.lastSpawnTime ∧
    ((updateParticles env e s dt).1.lastSpawnTime < 1 / e.birthrate ∨
      s.maxParticles ≤ (updateParticles env e s dt).1.particles.length) ∧
    (s.maxParticles ≤ s.particles.length →
      (updateParticles env e s dt).2 = 0 ∧
      (updateParticles env e s dt).1.particles = s.particles.map (updateOneParticle e dt) ∧
      (updateParticles env e s dt).1.lastSpawnTime = s.lastSpawnTime + dt) ∧
    (s.particles.length ≤ s.maxParticles →
      (updateParticles env e s dt).1.particles.length ≤ s.maxParticles) := by
  rw [updateParticles_fountain env e s dt ⟨hF, hB⟩]
  have hi : 0 < 1 / e.birthrate := by positivity
  obtain ⟨ha, hb, hc, hd, he, hf, _⟩ := spawnLoop_post env e (1 / e.birthrate) hi
    { particles := s.particles.map (updateOneParticle e dt),
      lastSpawnTime := s.lastSpawnTime + dt,
      maxParticles := s.maxParticles, rng := s.rng,
      animationTime := s.animationTime + dt }
  simp only [List.length_map] at ha hb hc hd he hf
  refine ⟨ha, he (by linarith), ?_, ?_, hf⟩
  · rcases hc with h1 | h1
    · exact Or.inl h1
    · exact Or.inr (le_trans (le_of_eq hb.symm) h1)
  · intro hfull
    rw [hd hfull]
    exact ⟨rfl, rfl, rfl⟩

/-- Witness for the amended C1 at a concrete emitter, store and step. -/
theorem C1_spawn_capacity_witness :
    (({} : EmitterNode).update = UpdateType.Fountain ∧ (0:ℚ) < ({} : EmitterNode).birthrate ∧
      (0:ℚ) ≤ (ParticleSystemState.fresh rngT).lastSpawnTime ∧ (0:ℚ) ≤ 1) ∧
    ((updateParticles envT {} (ParticleSystemState.fresh rngT) 1).1.lastSpawnTime
        = (ParticleSystemState.fresh rngT).lastSpawnTime + 1
          - (updateParticles envT {} (ParticleSystemState.fresh rngT) 1).2 * (1 / ({} : EmitterNode).birthrate) ∧
      0 ≤ (updateParticles envT {} (ParticleSystemState.fresh rngT) 1).1.lastSpawnTime ∧
      ((updateParticles envT {} (ParticleSystemState.fresh rngT) 1).1.lastSpawnTime
          < 1 / ({} : EmitterNode).birthrate ∨
        (ParticleSystemState.fresh rngT).maxParticles
          ≤ (updateParticles envT {} (ParticleSystemState.fresh rngT) 1).1.particles.length) ∧
      ((ParticleSystemState.fresh rngT).maxParticles ≤ (ParticleSystemState.fresh rngT).particles.length →
        (updateParticles envT {} (ParticleSystemState.fresh rngT) 1).2 = 0 ∧
        (updateParticles envT {} (ParticleSystemState.fresh rngT) 1).1.particles
          = (ParticleSystemState.fresh rngT).particles.map (updateOneParticle {} 1) ∧
        (updateParticles envT {} (ParticleSystemState.fresh rngT) 1).1.lastSpawnTime
          = (ParticleSystemState.fresh rngT).lastSpawnTime + 1) ∧
      ((ParticleSystemState.fresh rngT).particles.length ≤ (ParticleSystemState.fresh rngT).maxParticles →
        (updateParticles envT {} (ParticleSystemState.fresh rngT) 1).1.particles.length
          ≤ (ParticleSystemState.fresh rngT).maxParticles)) :=
  ⟨⟨rfl, by norm_num, le_refl 0, by norm_num⟩,
    C1_spawn_capacity envT {} (ParticleSystemState.fresh rngT) 1 rfl (by norm_num)
      (le_refl 0) (by norm_num)⟩

/-- Counterexample to C1 as stated: with the pool vector at its capacity
ceiling but containing an inactive (reusable) slot, and a full spawn
interval accumulated, the claim's capacity condition "an inactive slot
exists OR size < maxCapacity" holds, yet `advance` spawns nothing: the
loop guard only checks `size < maxParticles`. -/
theorem C1_counterexample :
    (({} : EmitterNode).update = UpdateType.Fountain ∧ (0:ℚ) < ({} : EmitterNode).birthrate ∧
      1 / ({} : EmitterNode).birthrate ≤ stateC1.lastSpawnTime + 1 ∧
      (∃ p ∈ stateC1.particles, p.active = false)) ∧
    (updateParticles envT {} stateC1 1).2 = 0 ∧
    (updateParticles envT {} stateC1 1).1.lastSpawnTime = stateC1.lastSpawnTime + 1 ∧
    (∀ p ∈ (updateParticles envT {} stateC1 1).1.particles, p.active = false) := by
  have hupd : updateParticles envT {} stateC1 1 =
      spawnLoop envT {} (1 / ({} : EmitterNode).birthrate)
        { particles := stateC1.particles.map (updateOneParticle {} 1),
          lastSpawnTime := stateC1.lastSpawnTime + 1,
          maxParticles := stateC1.maxParticles, rng := stateC1.rng,
          animationTime := stateC1.animationTime + 1 } :=
    updateParticles_fountain envT {} stateC1 1 ⟨rfl, by norm_num⟩
  have hloop : spawnLoop envT {} (1 / ({} : EmitterNode).birthrate)
      { particles := stateC1.particles.map (updateOneParticle {} 1),
        lastSpawnTime := stateC1.lastSpawnTime + 1,
        maxParticles := stateC1.maxParticles, rng := stateC1.rng,
        animationTime := stateC1.animationTime + 1 } =
      ({ particles := stateC1.particles.map (updateOneParticle {} 1),
         lastSpawnTime := stateC1.lastSpawnTime + 1,
         maxParticles := stateC1.maxParticles, rng := stateC1.rng,
         animationTime := stateC1.animationTime + 1 }, 0) := by
    rw [spawnLoop]
    simp [stateC1]
  refine ⟨⟨rfl, by norm_num, by simp [stateC1], ⟨Particle.default, by simp [stateC1], rfl⟩⟩, ?_, ?_, ?_⟩
  · rw [hupd, hloop]
  · rw [hupd, hloop]
  · rw [hupd, hloop]
    intro p hp
    simp only [stateC1, List.map_cons, List.map_nil, List.mem_singleton] at hp
    rw [hp]
    rfl

/-- A single Fountain advance with sufficient capacity spawns exactly
`⌊(accumulator + dt) * birthrate⌋` particles. -/
theorem updateParticles_count (env : MathEnv) (e : EmitterNode)
    (hF : e.update = UpdateType.Fountain) (hB : 0 < e.birthrate)
    (s : ParticleSystemState) (dt : ℚ) (hacc : 0 ≤ s.lastSpawnTime) (hdt : 0 ≤ dt)
    (hcap : s.particles.length + (⌊(s.lastSpawnTime + dt) * e.birthrate⌋).toNat
      ≤ s.maxParticles) :
    (updateParticles env e s dt).2 = (⌊(s.lastSpawnTime + dt) * e.birthrate⌋).toNat := by
  rw [updateParticles_fountain env e s dt ⟨hF, hB⟩]
  have hi : 0 < 1 / e.birthrate := by positivity
  have hcount := spawnLoop_count env e (1 / e.birthrate) hi
    { particles := s.particles.map (updateOneParticle e dt),
      lastSpawnTime := s.lastSpawnTime + dt,
      maxParticles := s.maxParticles, rng := s.rng,
      animationTime := s.animationTime + dt }
    (by simpa using by linarith)
    (by simpa [div_div_eq_mul_div, div_one] using hcap)
  simpa [div_div_eq_mul_div, div_one] using hcount

/-- Exact spawn totals over any sequence of nonnegative steps: starting
with the accumulator inside `[0, 1/birthrate)` and enough capacity, the
accumulated ghost count after advancing by `dts` is exactly
`⌊(accumulator + sum dts) * birthrate⌋`. -/
theorem advanceSeq_count (env : MathEnv) (e : EmitterNode)
    (hF : e.update = UpdateType.Fountain) (hB : 0 < e.birthrate) :
    ∀ (dts : List ℚ) (s : ParticleSystemState) (n : ℕ),
      (∀ d ∈ dts, 0 ≤ d) →
      0 ≤ s.lastSpawnTime → s.lastSpawnTime < 1 / e.birthrate →
      s.particles.length + (⌊(s.lastSpawnTime + dts.sum) * e.birthrate⌋).toNat
        ≤ s.maxParticles →
      (advanceSeq env e (s, n) dts).2
        = n + (⌊(s.lastSpawnTime + dts.sum) * e.birthrate⌋).toNat := by
  intro dts
  induction dts with
  | nil =>
    intro s n _ hacc haccI _
    have h0 : ⌊s.lastSpawnTime * e.birthrate⌋ = 0 := by
      rw [Int.floor_eq_zero_iff]
      constructor
      · positivity
      · calc s.lastSpawnTime * e.birthrate < (1 / e.birthrate) * e.birthrate :=
              mul_lt_mul_of_pos_right haccI hB
          _ = 1 := by field_simp
    simp [advanceSeq, h0]
  | cons dt rest ih =>
    intro s n hall hacc haccI hcap
    have hdt : 0 ≤ dt := hall dt (List.mem_cons_self dt rest)
    have hrestall : ∀ d ∈ rest, 0 ≤ d := fun d hd => hall d (List.mem_cons_of_mem dt hd)
    have hrsum : 0 ≤ rest.sum := List.sum_nonneg hrestall
    have hA : 0 ≤ s.lastSpawnTime + dt := by linarith
    have hfa : (0:ℤ) ≤ ⌊(s.lastSpawnTime + dt) * e.birthrate⌋ :=
      Int.floor_nonneg.mpr (by positivity)
    have hmono : ⌊(s.lastSpawnTime + dt) * e.birthrate⌋
        ≤ ⌊(s.lastSpawnTime + (dt :: rest).sum) * e.birthrate⌋ := by
      apply Int.floor_le_floor
      have : (0:ℚ) ≤ rest.sum * e.birthrate := by positivity
      simp only [List.sum_cons]
      nlinarith
    have hcap1 : s.particles.length + (⌊(s.lastSpawnTime + dt) * e.birthrate⌋).toNat
        ≤ s.maxParticles := by omega
    have hcount := updateParticles_count env e hF hB s dt hacc hdt hcap1
    have hi : 0 < 1 / e.birthrate := by positivity
    obtain ⟨ha, hb, _, _, he, _, hg⟩ := spawnLoop_post env e (1 / e.birthrate) hi
      { particles := s.particles.map (updateOneParticle e dt),
        lastSpawnTime := s.lastSpawnTime + dt,
        maxParticles := s.maxParticles, rng := s.rng,
        animationTime := s.animationTime + dt }
    rw [← updateParticles_fountain env e s dt ⟨hF, hB⟩] at ha hb he hg
    simp only [List.length_map] at ha hb he hg
    -- name the step result and the step count
    have hacc2 : 0 ≤ (updateParticles env e s dt).1.lastSpawnTime := he (by linarith)
    have hfloorcast : (((⌊(s.lastSpawnTime + dt) * e.birthrate⌋).toNat : ℕ) : ℚ)
        = ((⌊(s.lastSpawnTime + dt) * e.birthrate⌋ : ℤ) : ℚ) := by
      exact_mod_cast Int.toNat_of_nonneg hfa
    have haccEq : (updateParticles env e s dt).1.lastSpawnTime
        = s.lastSpawnTime + dt
          - (⌊(s.lastSpawnTime + dt) * e.birthrate⌋ : ℚ) * (1 / e.birthrate) := by
      rw [ha, hcount, hfloorcast]
    have hBne : e.birthrate ≠ 0 := ne_of_gt hB
    have hlt1 : (s.lastSpawnTime + dt) * e.birthrate
        < (⌊(s.lastSpawnTime + dt) * e.birthrate⌋ : ℚ) + 1 :=
      Int.lt_floor_add_one _
    have hinv : (1 / e.birthrate) * e.birthrate = 1 := by field_simp
    have haccI2 : (updateParticles env e s dt).1.lastSpawnTime < 1 / e.birthrate := by
      rw [haccEq]
      calc s.lastSpawnTime + dt
            - (⌊(s.lastSpawnTime + dt) * e.birthrate⌋ : ℚ) * (1 / e.birthrate)
          = ((s.lastSpawnTime + dt) * e.birthrate
              - (⌊(s.lastSpawnTime + dt) * e.birthrate⌋ : ℚ)) * (1 / e.birthrate) := by
            field_simp
        _ < 1 * (1 / e.birthrate) := by
            apply mul_lt_mul_of_pos_right _ hi
            linarith [hlt1]
        _ = 1 / e.birthrate := one_mul _
    have hfloor2 : ⌊((updateParticles env e s dt).1.lastSpawnTime + rest.sum) * e.birthrate⌋
        = ⌊(s.lastSpawnTime + (dt :: rest).sum) * e.birthrate⌋
          - ⌊(s.lastSpawnTime + dt) * e.birthrate⌋ := by
      have hexp : (s.lastSpawnTime + dt
            - (⌊(s.lastSpawnTime + dt) * e.birthrate⌋ : ℚ) * (1 / e.birthrate)
            + rest.sum) * e.birthrate
          = (s.lastSpawnTime + (dt + rest.sum)) * e.birthrate
            - (⌊(s.lastSpawnTime + dt) * e.birthrate⌋ : ℚ)
              * ((1 / e.birthrate) * e.birthrate) := by ring
      rw [haccEq, List.sum_cons, hexp, hinv, mul_one, Int.floor_sub_int]
    have hcap2 : (updateParticles env e s dt).1.particles.length
        + (⌊((updateParticles env e s dt).1.lastSpawnTime + rest.sum) * e.birthrate⌋).toNat
        ≤ (updateParticles env e s dt).1.maxParticles := by
      rw [hfloor2, hb]
      omega
    have hstep := ih (updateParticles env e s dt).1 (n + (updateParticles env e s dt).2)
      hrestall hacc2 haccI2 hcap2
    show (advanceSeq env e
        ((updateParticles env e s dt).1, n + (updateParticles env e s dt).2) rest).2 = _
    rw [hstep, hfloor2, hcount]
    omega

/-- Claim C2: from a fresh store (empty pool, zero accumulator) with a
capacity ceiling never reached, advancing by steps summing to `T` spawns
exactly `⌊T * birthrate⌋.toNat` particles — hence "`⌊B*T⌋` or `⌊B*T⌋+1`"
holds, and the total is independent of how `T` is partitioned into steps
(the exact-arithmetic model loses nothing to float rounding, so the
count is the same for every partition, not merely within ±1). -/
theorem C2_spawn_rate_fidelity (env : MathEnv) (e : EmitterNode)
    (hF : e.update = UpdateType.Fountain) (hB : 0 < e.birthrate)
    (M : ℕ) (rng : RNG) (dts : List ℚ) (hdts : ∀ d ∈ dts, 0 ≤ d)
    (hcap : (⌊dts.sum * e.birthrate⌋).toNat ≤ M) :
    (advanceSeq env e
        ({ particles := [], lastSpawnTime := 0, maxParticles := M, rng := rng,
           animationTime := 0 }, 0) dts).2 = (⌊dts.sum * e.birthrate⌋).toNat ∧
    ∀ (rng2 : RNG) (dts2 : List ℚ), (∀ d ∈ dts2, 0 ≤ d) → dts2.sum = dts.sum →
      (advanceSeq env e
          ({ particles := [], lastSpawnTime := 0, maxParticles := M, rng := rng2,
             animationTime := 0 }, 0) dts2).2
        = (advanceSeq env e
            ({ particles := [], lastSpawnTime := 0, maxParticles := M, rng := rng,
               animationTime := 0 }, 0) dts).2 := by
  have hmain : ∀ (r : RNG) (l : List ℚ), (∀ d ∈ l, 0 ≤ d) → l.sum = dts.sum →
      (advanceSeq env e
          ({ particles := [], lastSpawnTime := 0, maxParticles := M, rng := r,
             animationTime := 0 }, 0) l).2 = (⌊dts.sum * e.birthrate⌋).toNat := by
    intro r l hl hsum
    have hi : 0 < 1 / e.birthrate := by positivity
    have h := advanceSeq_count env e hF hB l
      { particles := [], lastSpawnTime := 0, maxParticles := M, rng := r, animationTime := 0 }
      0 hl (le_refl 0) hi (by simpa [hsum] using hcap)
    simpa [hsum] using h
  refine ⟨hmain rng dts hdts rfl, ?_⟩
  intro rng2 dts2 h2 hsum2
  rw [hmain rng2 dts2 h2 hsum2, hmain rng dts hdts rfl]

/-- Witness for C2: birthrate 2 advanced by one step of one second, with
the half-second two-step partition agreeing. -/
theorem C2_spawn_rate_fidelity_witness :
    (({ birthrate := 2 } : EmitterNode).update = UpdateType.Fountain ∧
      (0:ℚ) < ({ birthrate := 2 } : EmitterNode).birthrate ∧
      (∀ d ∈ [(1:ℚ)], 0 ≤ d) ∧
      (⌊[(1:ℚ)].sum * ({ birthrate := 2 } : EmitterNode).birthrate⌋).toNat ≤ 500000) ∧
    ((advanceSeq envT { birthrate := 2 }
        ({ particles := [], lastSpawnTime := 0, maxParticles := 500000, rng := rngT,
           animationTime := 0 }, 0) [(1:ℚ)]).2
      = (⌊[(1:ℚ)].sum * ({ birthrate := 2 } : EmitterNode).birthrate⌋).toNat ∧
    ∀ (rng2 : RNG) (dts2 : List ℚ), (∀ d ∈ dts2, 0 ≤ d) → dts2.sum = [(1:ℚ)].sum →
      (advanceSeq envT { birthrate := 2 }
          ({ particles := [], lastSpawnTime := 0, maxParticles := 500000, rng := rng2,
             animationTime := 0 }, 0) dts2).2
        = (advanceSeq envT { birthrate := 2 }
            ({ particles := [], lastSpawnTime := 0, maxParticles := 500000, rng := rngT,
               animationTime := 0 }, 0) [(1:ℚ)]).2) :=
  ⟨⟨rfl, by norm_num, by norm_num, by norm_num⟩,
    C2_spawn_rate_fidelity envT { birthrate := 2 } rfl (by norm_num) 500000 rngT [(1:ℚ)]
      (by norm_num) (by norm_num)⟩

theorem spawnedParticle_active (env : MathEnv) (e : EmitterNode) (pos : Vec3) (rng : RNG) :
    (spawnedParticle env e pos rng).1.active = true := rfl

theorem spawnedParticle_life (env : MathEnv) (e : EmitterNode) (pos : Vec3) (rng : RNG) :
    (spawnedParticle env e pos rng).1.life = e.lifeExp := rfl

theorem spawnedParticle_maxLife (env : MathEnv) (e : EmitterNode) (pos : Vec3) (rng : RNG) :
    (spawnedParticle env e pos rng).1.maxLife = e.lifeExp := rfl

theorem updateOneParticle_maxLife (e : EmitterNode) (dt : ℚ) (p : Particle) :
    (updateOneParticle e dt p).maxLife = p.maxLife := by
  unfold updateOneParticle
  split
  · dsimp only
    split <;> rfl
  · rfl

/-- Evaluates `updateParticles` with the Fountain branch not taken. -/
theorem updateParticles_other (env : MathEnv) (e : EmitterNode) (s : ParticleSystemState)
    (dt : ℚ) (h : ¬(e.update = UpdateType.Fountain ∧ 0 < e.birthrate)) :
    updateParticles env e s dt
      = ({ particles := s.particles.map (updateOneParticle e dt),
           lastSpawnTime := s.lastSpawnTime, maxParticles := s.maxParticles, rng := s.rng,
           animationTime := s.animationTime + dt }, 0) := by
  unfold updateParticles
  rw [if_neg h]

/-- Any per-particle property established by the aging pass and by fresh
spawns holds of every particle after an advance call. -/
theorem updateParticles_forall (env : MathEnv) (e : EmitterNode) (s : ParticleSystemState)
    (dt : ℚ) (Q : Particle → Prop)
    (hmap : ∀ p ∈ s.particles, Q (updateOneParticle e dt p))
    (hspawn : ∀ (rng : RNG) (pos : Vec3), Q (spawnedParticle env e pos rng).1) :
    ∀ p ∈ (updateParticles env e s dt).1.particles, Q p := by
  have hmapped : ∀ p ∈ s.particles.map (updateOneParticle e dt), Q p := by
    intro p hp
    obtain ⟨q, hq, rfl⟩ := List.mem_map.mp hp
    exact hmap q hq
  by_cases hf : e.update = UpdateType.Fountain ∧ 0 < e.birthrate
  · rw [updateParticles_fountain env e s dt hf]
    exact spawnLoop_forall env e (1 / e.birthrate) Q (fun rng pos => hspawn rng pos)
      { particles := s.particles.map (updateOneParticle e dt),
        lastSpawnTime := s.lastSpawnTime + dt,
        maxParticles := s.maxParticles, rng := s.rng,
        animationTime := s.animationTime + dt } hmapped
  · rw [updateParticles_other env e s dt hf]
    exact hmapped

/-- Claim C4: an advance call with `dt ≥ 0` on an emitter with positive
life expectancy preserves `0 ≤ life ≤ maxLife` for active particles, and
any particle whose life reached `≤ 0` during the step is inactive
immediately afterwards (equivalently: every post-step active particle has
strictly positive life). -/
theorem C4_life_invariant (env : MathEnv) (e : EmitterNode) (s : ParticleSystemState) (dt : ℚ)
    (hdt : 0 ≤ dt) (hlife : 0 < e.lifeExp) (hinv : ActiveLifeInv s) :
    ActiveLifeInv (updateParticles env e s dt).1 ∧
    ∀ p ∈ (updateParticles env e s dt).1.particles, p.active = true → 0 < p.life := by
  have key : ∀ p ∈ (updateParticles env e s dt).1.particles,
      p.active = true → 0 < p.life ∧ p.life ≤ p.maxLife := by
    apply updateParticles_forall env e s dt
      (fun p => p.active = true → 0 < p.life ∧ p.life ≤ p.maxLife)
    · intro q hq
      have hq2 := hinv q hq
      unfold updateOneParticle
      by_cases hact : q.active = true
      · rw [hact]
        simp only [if_true]
        by_cases hd : q.life - dt ≤ 0
        · rw [if_pos hd]
          intro hc
          simp at hc
        · rw [if_neg hd]
          intro _
          obtain ⟨h1, h2⟩ := hq2 hact
          constructor
          · linarith [lt_of_not_le hd]
          · simp only []
            linarith
      · have hfalse : q.active = false := by simpa using hact
        rw [hfalse]
        simp only [Bool.false_eq_true, if_false]
        intro hc
        rw [hfalse] at hc
        cases hc
    · intro rng pos
      intro _
      rw [spawnedParticle_life, spawnedParticle_maxLife]
      exact ⟨hlife, le_refl _⟩
  constructor
  · intro p hp hact
    obtain ⟨h1, h2⟩ := key p hp hact
    exact ⟨le_of_lt h1, h2⟩
  · intro p hp hact
    exact (key p hp hact).1

/-- Witness for C4 on a fresh store. -/
theorem C4_life_invariant_witness :
    ((0:ℚ) ≤ 1 ∧ (0:ℚ) < ({} : EmitterNode).lifeExp ∧
      ActiveLifeInv (ParticleSystemState.fresh rngT)) ∧
    (ActiveLifeInv (updateParticles envT {} (ParticleSystemState.fresh rngT) 1).1 ∧
      ∀ p ∈ (updateParticles envT {} (ParticleSystemState.fresh rngT) 1).1.particles,
        p.active = true → 0 < p.life) :=
  ⟨⟨by norm_num, by norm_num,
      fun p hp => absurd hp (by simp [ParticleSystemState.fresh])⟩,
    C4_life_invariant envT {} (ParticleSystemState.fresh rngT) 1 (by norm_num) (by norm_num)
      (fun p hp => absurd hp (by simp [ParticleSystemState.fresh]))⟩

/-- Claim C9: provided every advance uses an emitter with positive life
expectancy, every particle ever held in a store (default-constructed or
spawned) has `maxLife > 0`, so the `life / maxLife` division during the
per-particle update never divides by zero. -/
theorem C9_maxlife_positive (env : MathEnv) (e : EmitterNode) (s : ParticleSystemState) (dt : ℚ)
    (hlife : 0 < e.lifeExp) (hinv : MaxLifeInv s) :
    MaxLifeInv (updateParticles env e s dt).1 ∧ 0 < Particle.default.maxLife ∧
    ∀ p ∈ (updateParticles env e s dt).1.particles, p.maxLife ≠ 0 := by
  have key : MaxLifeInv (updateParticles env e s dt).1 := by
    apply updateParticles_forall env e s dt (fun p => 0 < p.maxLife)
    · intro q hq
      rw [updateOneParticle_maxLife]
      exact hinv q hq
    · intro rng pos
      rw [spawnedParticle_maxLife]
      exact hlife
  exact ⟨key, by norm_num [Particle.default], fun p hp => ne_of_gt (key p hp)⟩

/-- Witness for C9 on a fresh store. -/
theorem C9_maxlife_positive_witness :
    ((0:ℚ) < ({} : EmitterNode).lifeExp ∧ MaxLifeInv (ParticleSystemState.fresh rngT)) ∧
    (MaxLifeInv (updateParticles envT {} (ParticleSystemState.fresh rngT) 1).1 ∧
      0 < Particle.default.maxLife ∧
      ∀ p ∈ (updateParticles envT {} (ParticleSystemState.fresh rngT) 1).1.particles,
        p.maxLife ≠ 0) :=
  ⟨⟨by norm_num, fun p hp => absurd hp (by simp [ParticleSystemState.fresh])⟩,
    C9_maxlife_positive envT {} (ParticleSystemState.fresh rngT) 1 (by norm_num)
      (fun p hp => absurd hp (by simp [ParticleSystemState.fresh]))⟩

/-- Claim C10: `getActiveParticleCount` returns 0 outside
`[0, number of stores)`, and `getTotalActiveParticleCount` is the sum of
`getActiveParticleCount i` over all in-range indices `i`. -/
theorem C10_particle_counts (states : List ParticleSystemState) (i : ℤ) :
    ((i < 0 ∨ (states.length : ℤ) ≤ i) → getActiveParticleCount states i = 0) ∧
    getTotalActiveParticleCount states
      = ((List.range states.length).map
          (fun j : ℕ => getActiveParticleCount states (j : ℤ))).sum := by
  constructor
  · intro h
    unfold getActiveParticleCount
    by_cases h0 : i < 0
    · rw [if_pos h0]
    · rw [if_neg h0]
      have hlen : states.length ≤ i.toNat := by omega
      rw [List.get?_eq_none.mpr hlen]
  · induction states with
    | nil => rfl
    | cons st rest ih =>
      have hzero : getActiveParticleCount (st :: rest) ((0 : ℕ) : ℤ)
          = countActiveIn st.particles := rfl
      have hshift : ∀ j : ℕ, getActiveParticleCount (st :: rest) ((j + 1 : ℕ) : ℤ)
          = getActiveParticleCount rest (j : ℤ) := by
        intro j
        unfold getActiveParticleCount
        rw [if_neg (by omega), if_neg (by omega)]
        have h1 : ((j + 1 : ℕ) : ℤ).toNat = j + 1 := by omega
        have h2 : ((j : ℕ) : ℤ).toNat = j := by omega
        rw [h1, h2, List.get?_cons_succ]
      show countActiveIn st.particles + getTotalActiveParticleCount rest = _
      rw [List.length_cons, List.range_succ_eq_map, List.map_cons, List.sum_cons,
        List.map_map, hzero, ih]
      have hmapeq : List.map (fun j : ℕ => getActiveParticleCount rest (j : ℤ))
            (List.range rest.length)
          = List.map ((fun j : ℕ => getActiveParticleCount (st :: rest) (j : ℤ)) ∘ Nat.succ)
            (List.range rest.length) := by
        apply List.map_congr_left
        intro j _
        exact (hshift j).symm
      rw [hmapeq]

/-- Witness for C10 at a one-store state and the out-of-range index 5. -/
theorem C10_particle_counts_witness :
    (((5:ℤ) < 0 ∨ ((List.length [ParticleSystemState.fresh rngT] : ℕ) : ℤ) ≤ 5) →
      getActiveParticleCount [ParticleSystemState.fresh rngT] 5 = 0) ∧
    getTotalActiveParticleCount [ParticleSystemState.fresh rngT]
      = ((List.range (List.length [ParticleSystemState.fresh rngT])).map
          (fun j : ℕ => getActiveParticleCount [ParticleSystemState.fresh rngT] (j : ℤ))).sum :=
  C10_particle_counts [ParticleSystemState.fresh rngT] 5

/-- Claim C7: for every mouse delta, sensitivity and camera basis,
`mouseToCameraRelativeMovement` in `X_Axis` mode yields a vector with
zero Y and Z components — a scalar multiple of the world X axis. -/
theorem C7_xaxis_zero_yz (cameraRight cameraUp : Vec3) (dx dy sens : ℚ) :
    (mouseToCameraRelativeMovement cameraRight cameraUp dx dy GrabMode.X_Axis sens).y = 0 ∧
    (mouseToCameraRelativeMovement cameraRight cameraUp dx dy GrabMode.X_Axis sens).z = 0 ∧
    ∃ c : ℚ, mouseToCameraRelativeMovement cameraRight cameraUp dx dy GrabMode.X_Axis sens
      = ⟨c, 0, 0⟩ := by
  refine ⟨by simp only [mouseToCameraRelativeMovement]; split <;> simp,
    by simp only [mouseToCameraRelativeMovement]; split <;> simp, ?_⟩
  refine ⟨(if |Vec3.dot cameraRight ⟨1, 0, 0⟩| > |Vec3.dot cameraUp ⟨1, 0, 0⟩|
      then dx * Vec3.dot cameraRight ⟨1, 0, 0⟩
      else -dy * Vec3.dot cameraUp ⟨1, 0, 0⟩) * sens * 1, ?_⟩
  simp only [mouseToCameraRelativeMovement]
  show Vec3.smul _ _ = _
  simp [Vec3.smul]

theorem list_set_get_self {α : Type} (l : List α) (i : ℕ) (a : α) (h : l.get? i = some a) :
    l.set i a = l := by
  have hlt : i < l.length := by
    by_contra hc
    rw [List.get?_eq_none.mpr (not_lt.mp hc)] at h
    cases h
  apply List.ext_get?_iff.mpr
  intro n
  by_cases hn : n = i
  · subst hn
    rw [List.get?_set_eq_of_lt a hlt, h]
  · exact List.get?_set_ne a l (fun hc => hn hc.symm)

/-- Claim C8: starting a grab snapshots the targeted emitter's position;
after any sequence of intervening constrained mouse movements, cancelling
restores the emitter list exactly (the snapshot is written back and every
other field and entry was never touched), and the interaction state
returns to Idle (`GrabMode::None`), provided the target index is in
range. -/
theorem C8_grab_cancel_restores (g0 : GrabInteraction) (emitters : List EmitterNode)
    (selected : ℤ) (mousePos : ℚ × ℚ) (deltas : List Vec3)
    (hmode : g0.grabMode = GrabMode.None)
    (hsel0 : 0 ≤ selected) (hsel1 : selected < (emitters.length : ℤ)) :
    (cancelGrab (startGrab g0 emitters selected true mousePos)
        (deltas.foldl (applyGrabMovement (startGrab g0 emitters selected true mousePos))
          emitters)).1.grabMode = GrabMode.None ∧
    (cancelGrab (startGrab g0 emitters selected true mousePos)
        (deltas.foldl (applyGrabMovement (startGrab g0 emitters selected true mousePos))
          emitters)).2 = emitters ∧
    ∃ em, emitters.get? selected.toNat = some em ∧
      (startGrab g0 emitters selected true mousePos).grabStartPosition = em.position := by
  have hlt : selected.toNat < emitters.length := by omega
  obtain ⟨em, hem⟩ : ∃ em, emitters.get? selected.toNat = some em := by
    rcases h : emitters.get? selected.toNat with _ | em
    · rw [List.get?_eq_none] at h
      omega
    · exact ⟨em, rfl⟩
  have hg1 : startGrab g0 emitters selected true mousePos =
      { grabMode := GrabMode.Free, grabbedEmitter := selected,
        grabStartPosition := em.position, grabCurrentPosition := em.position,
        grabStartMouse := mousePos } := by
    unfold startGrab
    rw [if_pos ⟨hmode, rfl, hsel0, hsel1⟩, hem]
  rw [hg1]
  -- invariant: the fold only ever rewrites slot `selected` with some position
  have hfold : ∀ (ds : List Vec3) (es : List EmitterNode),
      (es = emitters ∨ ∃ p, es = emitters.set selected.toNat { em with position := p }) →
      (ds.foldl (applyGrabMovement
          { grabMode := GrabMode.Free, grabbedEmitter := selected,
            grabStartPosition := em.position, grabCurrentPosition := em.position,
            grabStartMouse := mousePos }) es = emitters ∨
        ∃ p, ds.foldl (applyGrabMovement
          { grabMode := GrabMode.Free, grabbedEmitter := selected,
            grabStartPosition := em.position, grabCurrentPosition := em.position,
            grabStartMouse := mousePos }) es
          = emitters.set selected.toNat { em with position := p }) := by
    intro ds
    induction ds with
    | nil => intro es hes; exact hes
    | cons d rest ih =>
      intro es hes
      rw [List.foldl_cons]
      apply ih
      rcases hes with hes | ⟨p, hes⟩
      · subst hes
        unfold applyGrabMovement
        rw [if_pos ⟨hsel0, hsel1⟩, hem]
        exact Or.inr ⟨em.position + d, rfl⟩
      · subst hes
        unfold applyGrabMovement
        rw [if_pos ⟨hsel0, by rw [List.length_set]; exact hsel1⟩,
          List.get?_set_eq_of_lt _ hlt]
        refine Or.inr ⟨em.position + d, ?_⟩
        show (emitters.set selected.toNat { em with position := p }).set selected.toNat
            { em with position := em.position + d }
          = emitters.set selected.toNat { em with position := em.position + d }
        rw [List.set_set]
  have hres := hfold deltas emitters (Or.inl rfl)
  refine ⟨rfl, ?_, ⟨em, hem, rfl⟩⟩
  rcases hres with hres | ⟨p, hres⟩ <;> rw [hres] <;> unfold cancelGrab
  · rw [if_pos ⟨hsel0, hsel1⟩, hem]
    show emitters.set selected.toNat { em with position := em.position } = emitters
    exact list_set_get_self emitters selected.toNat em hem
  · rw [if_pos ⟨hsel0, by rw [List.length_set]; exact hsel1⟩,
      List.get?_set_eq_of_lt _ hlt]
    show (emitters.set selected.toNat { em with position := p }).set selected.toNat
        { em with position := em.position } = emitters
    rw [List.set_set]
    exact list_set_get_self emitters selected.toNat em hem

/-- Witness for C8: a singleton emitter list, one intervening movement,
then cancel. -/
theorem C8_grab_cancel_restores_witness :
    (cancelGrab (startGrab
        { grabMode := GrabMode.None, grabbedEmitter := -1, grabStartPosition := Vec3.zero,
          grabCurrentPosition := Vec3.zero, grabStartMouse := (0, 0) }
        [{ position := ⟨1, 2, 3⟩ }] 0 true (0, 0))
      ([⟨(5:ℚ), 0, 0⟩].foldl (applyGrabMovement (startGrab
        { grabMode := GrabMode.None, grabbedEmitter := -1, grabStartPosition := Vec3.zero,
          grabCurrentPosition := Vec3.zero, grabStartMouse := (0, 0) }
        [{ position := ⟨1, 2, 3⟩ }] 0 true (0, 0)))
        [{ position := ⟨1, 2, 3⟩ }])).1.grabMode = GrabMode.None ∧
    (cancelGrab (startGrab
        { grabMode := GrabMode.None, grabbedEmitter := -1, grabStartPosition := Vec3.zero,
          grabCurrentPosition := Vec3.zero, grabStartMouse := (0, 0) }
        [{ position := ⟨1, 2, 3⟩ }] 0 true (0, 0))
      ([⟨(5:ℚ), 0, 0⟩].foldl (applyGrabMovement (startGrab
        { grabMode := GrabMode.None, grabbedEmitter := -1, grabStartPosition := Vec3.zero,
          grabCurrentPosition := Vec3.zero, grabStartMouse := (0, 0) }
        [{ position := ⟨1, 2, 3⟩ }] 0 true (0, 0)))
        [{ position := ⟨1, 2, 3⟩ }])).2 = [{ position := ⟨1, 2, 3⟩ }] ∧
    ∃ em, [({ position := ⟨1, 2, 3⟩ } : EmitterNode)].get? (0:ℤ).toNat = some em ∧
      (startGrab
        { grabMode := GrabMode.None, grabbedEmitter := -1, grabStartPosition := Vec3.zero,
          grabCurrentPosition := Vec3.zero, grabStartMouse := (0, 0) }
        [{ position := ⟨1, 2, 3⟩ }] 0 true (0, 0)).grabStartPosition = em.position :=
  C8_grab_cancel_restores
    { grabMode := GrabMode.None, grabbedEmitter := -1, grabStartPosition := Vec3.zero,
      grabCurrentPosition := Vec3.zero, grabStartMouse := (0, 0) }
    [{ position := ⟨1, 2, 3⟩ }] 0 (0, 0) [⟨(5:ℚ), 0, 0⟩] rfl (by norm_num) (by norm_num)

theorem dot_self_pos (v : Vec3) (h : v ≠ Vec3.zero) : 0 < Vec3.dot v v := by
  obtain ⟨x, y, z⟩ := v
  by_contra hc
  push_neg at hc
  unfold Vec3.dot at hc
  dsimp only at hc
  have hx : x = 0 := by nlinarith [mul_self_nonneg x, mul_self_nonneg y, mul_self_nonneg z]
  have hy : y = 0 := by nlinarith [mul_self_nonneg x, mul_self_nonneg y, mul_self_nonneg z]
  have hz : z = 0 := by nlinarith [mul_self_nonneg x, mul_self_nonneg y, mul_self_nonneg z]
  exact h (by rw [hx, hy, hz]; rfl)

/-- A value `t` solves the claim's sphere equation iff it is a root of the
quadratic the code assembles. -/
theorem sphereEq_iff_quad (ray : Ray) (center : Vec3) (radius : ℚ) (t : ℚ) :
    sphereEq ray center radius t ↔
      sphereQuadA ray * t^2 + sphereQuadB ray center * t
        + sphereQuadC ray center radius = 0 := by
  have hring : Vec3.dot (ray.origin + t • ray.direction - center)
        (ray.origin + t • ray.direction - center) - radius * radius
      = sphereQuadA ray * t^2 + sphereQuadB ray center * t
        + sphereQuadC ray center radius := by
    unfold sphereQuadA sphereQuadB sphereQuadC Vec3.dot
    simp only [Vec3.add_x, Vec3.add_y, Vec3.add_z, Vec3.sub_x, Vec3.sub_y, Vec3.sub_z,
      Vec3.smul_x, Vec3.smul_y, Vec3.smul_z]
    ring
  unfold sphereEq
  constructor
  · intro h
    rw [← hring]
    exact sub_eq_zero_of_eq h
  · intro h
    have h2 : Vec3.dot (ray.origin + t • ray.direction - center)
        (ray.origin + t • ray.direction - center) - radius * radius = 0 := by
      rw [hring]
      exact h
    linarith [h2]

/-- With a genuine square root of the discriminant, `t1` is a root of the
quadratic. -/
theorem quad_root_t1 (a b c s : ℚ) (ha : a ≠ 0) (hs : s * s = b * b - 4 * a * c) :
    a * ((-b - s) / (2 * a))^2 + b * ((-b - s) / (2 * a)) + c = 0 := by
  field_simp
  linear_combination 2 * a^2 * hs

/-- With a genuine square root of the discriminant, `t2` is a root of the
quadratic. -/
theorem quad_root_t2 (a b c s : ℚ) (ha : a ≠ 0) (hs : s * s = b * b - 4 * a * c) :
    a * ((-b + s) / (2 * a))^2 + b * ((-b + s) / (2 * a)) + c = 0 := by
  field_simp
  linear_combination 2 * a^2 * hs

/-- Every root of the quadratic is `t1` or `t2`. -/
theorem quad_roots_eq (a b c s t : ℚ) (ha : a ≠ 0)
    (hs : s * s = b * b - 4 * a * c) (ht : a * t^2 + b * t + c = 0) :
    t = (-b - s) / (2 * a) ∨ t = (-b + s) / (2 * a) := by
  have key : (2 * a * t + b - s) * (2 * a * t + b + s) = 0 := by
    linear_combination 4 * a * ht - hs
  rcases mul_eq_zero.mp key with h | h
  · right
    field_simp
    linarith
  · left
    field_simp
    linarith

/-- A quadratic with negative discriminant has no rational root. -/
theorem quad_no_root (a b c t : ℚ) (hd : b * b - 4 * a * c < 0)
    (ht : a * t^2 + b * t + c = 0) : False := by
  have key : (2 * a * t + b)^2 = b * b - 4 * a * c := by
    linear_combination 4 * a * ht
  nlinarith [sq_nonneg (2 * a * t + b)]

/-- Claim C5: the ray-sphere test solves `|O + t*D - C|^2 = r^2` and
reports a hit at the smallest positive root (the smaller root when
positive, else the larger root when positive), and a miss exactly when no
positive root exists (negative discriminant or both roots nonpositive).
`sqrtF` is constrained to behave as a square root on the discriminant. -/
theorem C5_ray_sphere (sqrtF : ℚ → ℚ) (ray : Ray) (center : Vec3) (radius : ℚ)
    (hD : ray.direction ≠ Vec3.zero)
    (hs : 0 ≤ sphereDiscriminant ray center radius →
      0 ≤ sqrtF (sphereDiscriminant ray center radius) ∧
      sqrtF (sphereDiscriminant ray center radius)
          * sqrtF (sphereDiscriminant ray center radius)
        = sphereDiscriminant ray center radius) :
    (∀ t, rayIntersectsSphere sqrtF ray center radius = some t →
      sphereEq ray center radius t ∧ 0 < t ∧
      ∀ u, sphereEq ray center radius u → 0 < u → t ≤ u) ∧
    (rayIntersectsSphere sqrtF ray center radius = none →
      ∀ u, sphereEq ray center radius u → u ≤ 0) := by
  have ha : 0 < sphereQuadA ray := dot_self_pos ray.direction hD
  have hane : sphereQuadA ray ≠ 0 := ne_of_gt ha
  by_cases hd : sphereDiscriminant ray center radius < 0
  · -- miss: negative discriminant, no rational root at all
    constructor
    · intro t ht
      unfold rayIntersectsSphere at ht
      rw [if_pos hd] at ht
      cases ht
    · intro _ u hu
      exfalso
      exact quad_no_root _ _ _ u (by unfold sphereDiscriminant at hd; linarith)
        ((sphereEq_iff_quad ray center radius u).mp hu)
  · obtain ⟨hs0, hs2⟩ := hs (not_lt.mp hd)
    have hsd : sqrtF (sphereDiscriminant ray center radius)
          * sqrtF (sphereDiscriminant ray center radius)
        = sphereQuadB ray center * sphereQuadB ray center
          - 4 * sphereQuadA ray * sphereQuadC ray center radius := by
      rw [hs2]
      unfold sphereDiscriminant
      ring
    have hroot1 : sphereEq ray center radius (sphereT1 sqrtF ray center radius) := by
      rw [sphereEq_iff_quad]
      exact quad_root_t1 _ _ _ _ hane hsd
    have hroot2 : sphereEq ray center radius (sphereT2 sqrtF ray center radius) := by
      rw [sphereEq_iff_quad]
      exact quad_root_t2 _ _ _ _ hane hsd
    have hroots : ∀ u, sphereEq ray center radius u →
        u = sphereT1 sqrtF ray center radius ∨ u = sphereT2 sqrtF ray center radius := by
      intro u hu
      exact quad_roots_eq _ _ _ _ u hane hsd ((sphereEq_iff_quad ray center radius u).mp hu)
    have ht12 : sphereT1 sqrtF ray center radius ≤ sphereT2 sqrtF ray center radius := by
      unfold sphereT1 sphereT2
      have h2a : (0:ℚ) < 2 * sphereQuadA ray := by linarith
      exact (div_le_div_right h2a).mpr (by linarith)
    unfold rayIntersectsSphere
    rw [if_neg hd]
    by_cases h1 : sphereT1 sqrtF ray center radius > 0
    · rw [if_pos h1]
      constructor
      · intro t ht
        injection ht with ht
        subst ht
        refine ⟨hroot1, h1, ?_⟩
        intro u hu hu0
        rcases hroots u hu with rfl | rfl
        · exact le_refl _
        · exact ht12
      · intro hnone
        cases hnone
    · rw [if_neg h1]
      by_cases h2 : sphereT2 sqrtF ray center radius > 0
      · rw [if_pos h2]
        constructor
        · intro t ht
          injection ht with ht
          subst ht
          refine ⟨hroot2, h2, ?_⟩
          intro u hu hu0
          rcases hroots u hu with rfl | rfl
          · exact absurd hu0 h1
          · exact le_refl _
        · intro hnone
          cases hnone
      · rw [if_neg h2]
        constructor
        · intro t ht
          cases ht
        · intro _ u hu
          rcases hroots u hu with rfl | rfl
          · exact not_lt.mp h1
          · exact not_lt.mp h2

/-- Witness for C5: a ray from `(0,0,-2)` along `+z` against the unit
sphere at the origin hits at distance `t1 = 1`. -/
theorem C5_ray_sphere_witness :
    (({ origin := ⟨0, 0, -2⟩, direction := ⟨0, 0, 1⟩ } : Ray).direction ≠ Vec3.zero) ∧
    rayIntersectsSphere sqrtW { origin := ⟨0, 0, -2⟩, direction := ⟨0, 0, 1⟩ } Vec3.zero 1
      = some 1 ∧
    ((∀ t, rayIntersectsSphere sqrtW { origin := ⟨0, 0, -2⟩, direction := ⟨0, 0, 1⟩ }
        Vec3.zero 1 = some t →
      sphereEq { origin := ⟨0, 0, -2⟩, direction := ⟨0, 0, 1⟩ } Vec3.zero 1 t ∧ 0 < t ∧
      ∀ u, sphereEq { origin := ⟨0, 0, -2⟩, direction := ⟨0, 0, 1⟩ } Vec3.zero 1 u →
        0 < u → t ≤ u) ∧
    (rayIntersectsSphere sqrtW { origin := ⟨0, 0, -2⟩, direction := ⟨0, 0, 1⟩ } Vec3.zero 1
        = none →
      ∀ u, sphereEq { origin := ⟨0, 0, -2⟩, direction := ⟨0, 0, 1⟩ } Vec3.zero 1 u → u ≤ 0)) :=
  ⟨by simp [Vec3.zero], by
      norm_num [rayIntersectsSphere, sphereT1, sphereT2, sphereQuadA, sphereQuadB,
        sphereQuadC, sphereDiscriminant, sqrtW, Vec3.dot, Vec3.zero],
    C5_ray_sphere sqrtW { origin := ⟨0, 0, -2⟩, direction := ⟨0, 0, 1⟩ } Vec3.zero 1
      (by simp [Vec3.zero])
      (by norm_num [sqrtW, sphereDiscriminant, sphereQuadA, sphereQuadB, sphereQuadC,
        Vec3.dot, Vec3.zero])⟩

/-- Two sequential accumulator updates behave as one update with the
combined (nearer) candidate. -/
theorem pickUpdate_pickUpdate (acc : ℤ × Option ℚ) (i : ℕ) (s c : Option ℚ) :
    pickUpdate (pickUpdate acc i s) i c = pickUpdate acc i (combineHits s c) := by
  rcases s with _ | ds
  · rfl
  · rcases c with _ | dc
    · rfl
    · unfold pickUpdate combineHits
      rcases hacc : acc.2 with _ | closest
      · by_cases h21 : dc < ds
        · simp [h21]
        · simp [h21]
      · by_cases h1 : ds < closest
        · by_cases h21 : dc < ds
          · simp [h1, h21, lt_trans h21 h1]
          · simp [h1, h21]
        · by_cases h21 : dc < ds
          · simp [h1, h21, hacc]
          · have h2 : ¬ dc < closest := by
              push_neg at h1 h21 ⊢
              exact le_trans h1 h21
            simp [h1, h21, h2, hacc]

/-- One loop body equals a single accumulator update with the emitter's
best hit. -/
theorem pickStep_eq (env : MathEnv) (ray : Ray) (time : ℚ) (acc : ℤ × Option ℚ) (i : ℕ)
    (e : EmitterNode) :
    pickStep env ray time acc i e = pickUpdate acc i (emitterHitDistance env ray time e) := by
  unfold pickStep emitterHitDistance
  by_cases hcond : e.velocity > 0 ∧ e.spread > 0
  · rw [if_pos hcond, if_pos hcond]
    exact pickUpdate_pickUpdate acc i _ _
  · rw [if_neg hcond, if_neg hcond]
    rcases hs : rayIntersectsSphere env.sqrtq ray (e.getAnimatedPosition time)
        (max (1/2) (max e.xsize e.ysize * (1/2) + 1/5)) with _ | d
    · rfl
    · rfl

/-- A reported sphere-hit distance is strictly positive (both code paths
are guarded by `t > 0`). -/
theorem rayIntersectsSphere_pos (sqrtF : ℚ → ℚ) (ray : Ray) (center : Vec3) (radius d : ℚ)
    (h : rayIntersectsSphere sqrtF ray center radius = some d) : 0 < d := by
  unfold rayIntersectsSphere at h
  split_ifs at h with h1 h2 h3
  · injection h with h
    rw [← h]
    exact h2
  · injection h with h
    rw [← h]
    exact h3

/-- A reported cone-hit distance is strictly positive. -/
theorem rayIntersectsCone_pos (env : MathEnv) (ray : Ray) (apex direction : Vec3)
    (height angle d : ℚ) (h : rayIntersectsCone env ray apex direction height angle = some d) :
    0 < d := by
  unfold rayIntersectsCone at h
  obtain ⟨i, hi, hf⟩ := List.exists_of_findSome?_eq_some h
  split_ifs at hf
  exact rayIntersectsSphere_pos env.sqrtq ray _ _ d hf

/-- A reported per-emitter best hit is strictly positive. -/
theorem emitterHitDistance_pos (env : MathEnv) (ray : Ray) (time : ℚ) (e : EmitterNode)
    (d : ℚ) (h : emitterHitDistance env ray time e = some d) : 0 < d := by
  unfold emitterHitDistance at h
  have hcone : ∀ x : ℚ, (if e.velocity > 0 ∧ e.spread > 0 then
      rayIntersectsCone env ray (e.getAnimatedPosition time)
        ((env.mat3FromAngles e.rotationAngles).mulVec ⟨0, 0, 1⟩) 2
        (env.radq (e.spread * (1/2)))
    else none) = some x → 0 < x := by
    intro x hx
    split_ifs at hx
    exact rayIntersectsCone_pos env ray _ _ _ _ x hx
  rcases hs : rayIntersectsSphere env.sqrtq ray (e.getAnimatedPosition time)
      (max (1/2) (max e.xsize e.ysize * (1/2) + 1/5)) with _ | ds
  · rw [hs] at h
    exact hcone d h
  · rw [hs] at h
    rcases hc : (if e.velocity > 0 ∧ e.spread > 0 then
        rayIntersectsCone env ray (e.getAnimatedPosition time)
          ((env.mat3FromAngles e.rotationAngles).mulVec ⟨0, 0, 1⟩) 2
          (env.radq (e.spread * (1/2)))
      else none) with _ | dc
    · rw [hc] at h
      simp only [combineHits] at h
      injection h with h
      rw [← h]
      exact rayIntersectsSphere_pos env.sqrtq ray _ _ ds hs
    · rw [hc] at h
      simp only [combineHits] at h
      split_ifs at h with hlt
      · injection h with h
        rw [← h]
        exact hcone dc hc
      · injection h with h
        rw [← h]
        exact rayIntersectsSphere_pos env.sqrtq ray _ _ ds hs

/-- Loop invariant for `pickLoop`: either no emitter in the remaining
list beats the accumulator (which is then returned unchanged), or the
result records an index of the list whose best hit is minimal among the
list's hits and strictly beats the incoming accumulator. -/
theorem pickLoop_spec (env : MathEnv) (ray : Ray) (time : ℚ) :
    ∀ (l : List EmitterNode) (k : ℕ) (acc : ℤ × Option ℚ),
      (pickLoop env ray time k acc l = acc ∧
        ∀ j e d, l.get? j = some e → emitterHitDistance env ray time e = some d →
          ∃ c, acc.2 = some c ∧ c ≤ d) ∨
      (∃ j e d, l.get? j = some e ∧ emitterHitDistance env ray time e = some d ∧
        pickLoop env ray time k acc l = (((k + j : ℕ) : ℤ), some d) ∧
        (∀ j2 e2 d2, l.get? j2 = some e2 → emitterHitDistance env ray time e2 = some d2 →
          d ≤ d2) ∧
        (∀ c, acc.2 = some c → d < c)) := by
  intro l
  induction l with
  | nil =>
    intro k acc
    left
    refine ⟨rfl, ?_⟩
    intro j e d hj
    simp at hj
  | cons e0 rest ih =>
    intro k acc
    have hstep : pickLoop env ray time k acc (e0 :: rest)
        = pickLoop env ray time (k + 1) (pickUpdate acc k (emitterHitDistance env ray time e0))
          rest := by
      show pickLoop env ray time (k + 1) (pickStep env ray time acc k e0) rest = _
      rw [pickStep_eq]
    rcases hhit : emitterHitDistance env ray time e0 with _ | d0
    · -- the head has no hit: the accumulator passes through unchanged
      have hred : pickUpdate acc k (emitterHitDistance env ray time e0) = acc := by
        rw [hhit]
        rfl
      rw [hred] at hstep
      rcases ih (k + 1) acc with ⟨h1, h2⟩ | ⟨j, e2, d2, hj, hd2, hres, hmin, hbeat⟩
      · left
        refine ⟨by rw [hstep, h1], ?_⟩
        intro j e d hj hd
        match j, hj with
        | 0, hj =>
          rw [List.get?_cons_zero] at hj
          injection hj with hj
          rw [← hj, hhit] at hd
          cases hd
        | (j' + 1), hj =>
          rw [List.get?_cons_succ] at hj
          exact h2 j' e d hj hd
      · right
        refine ⟨j + 1, e2, d2, by rw [List.get?_cons_succ]; exact hj, hd2, ?_, ?_, hbeat⟩
        · rw [hstep, hres]
          congr 2
          omega
        · intro j2 e d hj2 hd
          match j2, hj2 with
          | 0, hj2 =>
            rw [List.get?_cons_zero] at hj2
            injection hj2 with hj2
            rw [← hj2, hhit] at hd
            cases hd
          | (j2' + 1), hj2 =>
            rw [List.get?_cons_succ] at hj2
            exact hmin j2' e d hj2 hd
    · -- the head hits at d0
      rcases hacc : acc.2 with _ | c0
      · -- empty accumulator: the head is recorded
        have hred : pickUpdate acc k (emitterHitDistance env ray time e0)
            = ((k : ℤ), some d0) := by
          rw [hhit]
          unfold pickUpdate
          rw [hacc]
        rw [hred] at hstep
        rcases ih (k + 1) ((k : ℤ), some d0) with ⟨h1, h2⟩ |
          ⟨j, e2, d2, hj, hd2, hres, hmin, hbeat⟩
        · right
          refine ⟨0, e0, d0, List.get?_cons_zero, hhit, ?_, ?_, ?_⟩
          · rw [hstep, h1]
            congr 2 <;> omega
          · intro j2 e d hj2 hd
            match j2, hj2 with
            | 0, hj2 =>
              rw [List.get?_cons_zero] at hj2
              injection hj2 with hj2
              rw [← hj2, hhit] at hd
              injection hd with hd
              rw [hd]
            | (j2' + 1), hj2 =>
              rw [List.get?_cons_succ] at hj2
              obtain ⟨c, hc1, hc2⟩ := h2 j2' e d hj2 hd
              injection hc1 with hc1
              rw [hc1]
              exact hc2
          · intro c hc
            cases hc
        · right
          have hd20 : d2 < d0 := hbeat d0 rfl
          refine ⟨j + 1, e2, d2, by rw [List.get?_cons_succ]; exact hj, hd2, ?_, ?_, ?_⟩
          · rw [hstep, hres]
            congr 2 <;> omega
          · intro j2 e d hj2 hd
            match j2, hj2 with
            | 0, hj2 =>
              rw [List.get?_cons_zero] at hj2
              injection hj2 with hj2
              rw [← hj2, hhit] at hd
              injection hd with hd
              rw [← hd]
              exact le_of_lt hd20
            | (j2' + 1), hj2 =>
              rw [List.get?_cons_succ] at hj2
              exact hmin j2' e d hj2 hd
          · intro c hc
            cases hc
      · by_cases hlt : d0 < c0
        · -- the head strictly beats the accumulator
          have hred : pickUpdate acc k (emitterHitDistance env ray time e0)
              = ((k : ℤ), some d0) := by
            rw [hhit]
            unfold pickUpdate
            rw [hacc]
            simp [hlt]
          rw [hred] at hstep
          rcases ih (k + 1) ((k : ℤ), some d0) with ⟨h1, h2⟩ |
            ⟨j, e2, d2, hj, hd2, hres, hmin, hbeat⟩
          · right
            refine ⟨0, e0, d0, List.get?_cons_zero, hhit, ?_, ?_, ?_⟩
            · rw [hstep, h1]
              congr 2 <;> omega
            · intro j2 e d hj2 hd
              match j2, hj2 with
              | 0, hj2 =>
                rw [List.get?_cons_zero] at hj2
                injection hj2 with hj2
                rw [← hj2, hhit] at hd
                injection hd with hd
                rw [hd]
              | (j2' + 1), hj2 =>
                rw [List.get?_cons_succ] at hj2
                obtain ⟨c, hc1, hc2⟩ := h2 j2' e d hj2 hd
                injection hc1 with hc1
                rw [hc1]
                exact hc2
            · intro c hc
              injection hc with hc
              rw [← hc]
              exact hlt
          · right
            have hd20 : d2 < d0 := hbeat d0 rfl
            refine ⟨j + 1, e2, d2, by rw [List.get?_cons_succ]; exact hj, hd2, ?_, ?_, ?_⟩
            · rw [hstep, hres]
              congr 2 <;> omega
            · intro j2 e d hj2 hd
              match j2, hj2 with
              | 0, hj2 =>
                rw [List.get?_cons_zero] at hj2
                injection hj2 with hj2
                rw [← hj2, hhit] at hd
                injection hd with hd
                rw [← hd]
                exact le_of_lt hd20
              | (j2' + 1), hj2 =>
                rw [List.get?_cons_succ] at hj2
                exact hmin j2' e d hj2 hd
            · intro c hc
              injection hc with hc
              rw [← hc]
              exact lt_trans hd20 hlt
        · -- the accumulator survives the head
          have hred : pickUpdate acc k (emitterHitDistance env ray time e0) = acc := by
            rw [hhit]
            unfold pickUpdate
            rw [hacc]
            simp [hlt]
          rw [hred] at hstep
          rcases ih (k + 1) acc with ⟨h1, h2⟩ | ⟨j, e2, d2, hj, hd2, hres, hmin, hbeat⟩
          · left
            refine ⟨by rw [hstep, h1], ?_⟩
            intro j e d hj hd
            match j, hj with
            | 0, hj =>
              rw [List.get?_cons_zero] at hj
              injection hj with hj
              rw [← hj, hhit] at hd
              injection hd with hd
              exact ⟨c0, rfl, by rw [← hd]; exact not_lt.mp hlt⟩
            | (j' + 1), hj =>
              rw [List.get?_cons_succ] at hj
              obtain ⟨c, hc1, hc2⟩ := h2 j' e d hj hd
              rw [hacc] at hc1
              exact ⟨c, hc1, hc2⟩
          · right
            have hd2c : d2 < c0 := hbeat c0 hacc
            refine ⟨j + 1, e2, d2, by rw [List.get?_cons_succ]; exact hj, hd2, ?_, ?_, ?_⟩
            · rw [hstep, hres]
              congr 2 <;> omega
            · intro j2 e d hj2 hd
              match j2, hj2 with
              | 0, hj2 =>
                rw [List.get?_cons_zero] at hj2
                injection hj2 with hj2
                rw [← hj2, hhit] at hd
                injection hd with hd
                rw [← hd]
                exact le_of_lt (lt_of_lt_of_le hd2c (not_lt.mp hlt))
              | (j2' + 1), hj2 =>
                rw [List.get?_cons_succ] at hj2
                exact hmin j2' e d hj2 hd
            · intro c hc
              injection hc with hc
              rw [← hc]
              exact hd2c

/-- Claim C6: `pickEmitter` tests each emitter's bounding sphere (radius
`max(0.5, max(xsize,ysize)/2 + 0.2)`) at its animated position plus,
when `velocity > 0` and `spread > 0`, the disc-sampled cone
approximation, and returns the index of an emitter whose (strictly
positive) hit distance is smallest among all hits; with no hit it
returns the no-selection sentinel `-1`. -/
theorem C6_pick_emitter (env : MathEnv) (emitters : List EmitterNode) (ray : Ray) (time : ℚ) :
    (pickEmitter env emitters ray time = -1 ↔
      ∀ j e, emitters.get? j = some e → emitterHitDistance env ray time e = none) ∧
    (pickEmitter env emitters ray time ≠ -1 →
      ∃ (j : ℕ) (e : EmitterNode) (d : ℚ),
        pickEmitter env emitters ray time = (j : ℤ) ∧ emitters.get? j = some e ∧
        emitterHitDistance env ray time e = some d ∧
        ∀ j2 e2 d2, emitters.get? j2 = some e2 →
          emitterHitDistance env ray time e2 = some d2 → d ≤ d2) ∧
    (∀ j e d, emitters.get? j = some e → emitterHitDistance env ray time e = some d →
      0 < d) := by
  refine ⟨?_, ?_, fun j e d _ hd => emitterHitDistance_pos env ray time e d hd⟩ <;>
    unfold pickEmitter <;>
    rcases pickLoop_spec env ray time emitters 0 (-1, none) with ⟨h1, h2⟩ |
      ⟨j, e, d, hj, hd, hres, hmin, _⟩
  · constructor
    · intro _ j e hj
      rcases hhit : emitterHitDistance env ray time e with _ | d
      · rfl
      · obtain ⟨c, hc, _⟩ := h2 j e d hj hhit
        exact Option.noConfusion hc
    · intro _
      rw [h1]
  · constructor
    · intro hpick
      exfalso
      rw [hres] at hpick
      simp only [] at hpick
      omega
    · intro hall
      exfalso
      rw [hall j e hj] at hd
      cases hd
  · intro hne
    exfalso
    apply hne
    rw [h1]
  · intro _
    refine ⟨j, e, d, ?_, hj, hd, hmin⟩
    rw [hres]
    simp only []
    omega

/-- Witness for C6: with no emitters the pick returns the sentinel. -/
theorem C6_pick_emitter_witness :
    pickEmitter envT [] { origin := Vec3.zero, direction := ⟨0, 0, 1⟩ } 0 = -1 ∧
    ((pickEmitter envT [] { origin := Vec3.zero, direction := ⟨0, 0, 1⟩ } 0 = -1 ↔
      ∀ j e, ([] : List EmitterNode).get? j = some e →
        emitterHitDistance envT { origin := Vec3.zero, direction := ⟨0, 0, 1⟩ } 0 e = none) ∧
    (pickEmitter envT [] { origin := Vec3.zero, direction := ⟨0, 0, 1⟩ } 0 ≠ -1 →
      ∃ (j : ℕ) (e : EmitterNode) (d : ℚ),
        pickEmitter envT [] { origin := Vec3.zero, direction := ⟨0, 0, 1⟩ } 0 = (j : ℤ) ∧
        ([] : List EmitterNode).get? j = some e ∧
        emitterHitDistance envT { origin := Vec3.zero, direction := ⟨0, 0, 1⟩ } 0 e = some d ∧
        ∀ j2 e2 d2, ([] : List EmitterNode).get? j2 = some e2 →
          emitterHitDistance envT { origin := Vec3.zero, direction := ⟨0, 0, 1⟩ } 0 e2 = some d2 →
          d ≤ d2) ∧
    (∀ j e d, ([] : List EmitterNode).get? j = some e →
      emitterHitDistance envT { origin := Vec3.zero, direction := ⟨0, 0, 1⟩ } 0 e = some d →
      0 < d)) :=
  ⟨rfl, C6_pick_emitter envT [] { origin := Vec3.zero, direction := ⟨0, 0, 1⟩ } 0⟩
